import Mathlib

/-!
# SevaSwiftUI: the compile-and-execute pipeline

A shallow embedding of the client execution host
(`web/src/renderer/WasmRuntime.js`), of the compile and telemetry endpoints
(`server/src/server.js`), of the telemetry service
(`server/src/services/TelemetryService.js`), of the client's telemetry call
(`web/src/renderer/CompileService.js`) and of the router with its pages
(`web/src/app.js`, `web/src/ui/PreviewPage.js`), with the properties of the
specification that concern them.

JavaScript values are embedded as a small datatype; the browser, the
WebAssembly engine, the companion code and the compile worker are external
collaborators whose behaviour is taken as a parameter.  Every effect that the
specification talks about (instantiation, script injection, construction of
the entry point, its lifecycle methods, the teardown hook, console output,
worker invocations, page lifecycle) is recorded in an explicit trace.  The
compile worker itself is not among the sources; the pipeline behind it is
written from the specification, in a section of its own.
-/

namespace SevaSwiftUI

/-! ## JavaScript values -/

/-- A JavaScript string: its sequence of UTF-16 code units. -/
abbrev JsString := List Nat

/-- The UTF-16 code units of one Unicode scalar value. -/
def utf16 (c : Char) : List Nat :=
  if c.toNat < 65536 then [c.toNat]
  else [55296 + (c.toNat - 65536) / 1024, 56320 + (c.toNat - 65536) % 1024]

/-- A string literal of the source, as a JavaScript string. -/
def lit (s : String) : JsString := (s.toList.map utf16).flatten

mutual
/-- JavaScript values: primitives and objects.  An object is the list of
its properties (inherited ones flattened in); numbers are the integral ones. -/
inductive JsVal where
  | undefined
  | null
  | bool (b : Bool)
  | num (n : Int)
  | str (s : JsString)
  | obj (props : JsProps)
/-- The properties of an object, in insertion order. -/
inductive JsProps where
  | nil
  | cons (key : JsString) (value : JsVal) (rest : JsProps)
end

mutual
/-- Decidable equality of values. -/
def JsVal.decEq : (a b : JsVal) → Decidable (a = b)
  | .undefined, .undefined => isTrue rfl
  | .null, .null => isTrue rfl
  | .bool a, .bool b =>
    if h : a = b then isTrue (by rw [h]) else isFalse (by intro e; cases e; exact h rfl)
  | .num a, .num b =>
    if h : a = b then isTrue (by rw [h]) else isFalse (by intro e; cases e; exact h rfl)
  | .str a, .str b =>
    if h : a = b then isTrue (by rw [h]) else isFalse (by intro e; cases e; exact h rfl)
  | .obj a, .obj b =>
    match JsProps.decEq a b with
    | isTrue h => isTrue (by rw [h])
    | isFalse h => isFalse (by intro e; cases e; exact h rfl)
  | .undefined, .null | .undefined, .bool _ | .undefined, .num _ | .undefined, .str _
  | .undefined, .obj _
  | .null, .undefined | .null, .bool _ | .null, .num _ | .null, .str _ | .null, .obj _
  | .bool _, .undefined | .bool _, .null | .bool _, .num _ | .bool _, .str _ | .bool _, .obj _
  | .num _, .undefined | .num _, .null | .num _, .bool _ | .num _, .str _ | .num _, .obj _
  | .str _, .undefined | .str _, .null | .str _, .bool _ | .str _, .num _ | .str _, .obj _
  | .obj _, .undefined | .obj _, .null | .obj _, .bool _ | .obj _, .num _ | .obj _, .str _ =>
    isFalse (by intro e; cases e)
/-- Decidable equality of property lists. -/
def JsProps.decEq : (a b : JsProps) → Decidable (a = b)
  | .nil, .nil => isTrue rfl
  | .cons k v r, .cons k2 v2 r2 =>
    if hk : k = k2 then
      match JsVal.decEq v v2 with
      | isTrue hv =>
        match JsProps.decEq r r2 with
        | isTrue hr => isTrue (by rw [hk, hv, hr])
        | isFalse hr => isFalse (by intro e; cases e; exact hr rfl)
      | isFalse hv => isFalse (by intro e; cases e; exact hv rfl)
    else isFalse (by intro e; cases e; exact hk rfl)
  | .nil, .cons _ _ _ | .cons _ _ _, .nil => isFalse (by intro e; cases e)
end

instance : DecidableEq JsVal := JsVal.decEq
instance : DecidableEq JsProps := JsProps.decEq

/-- Property lookup in an object: `undefined` when the key is missing. -/
def JsProps.lookup : JsProps → JsString → JsVal
  | .nil, _ => .undefined
  | .cons k v rest, key => if k = key then v else rest.lookup key

/-- Assignment `o[key] = v`: an existing key keeps its position. -/
def JsProps.set : JsProps → JsString → JsVal → JsProps
  | .nil, key, v => .cons key v .nil
  | .cons k w rest, key, v =>
    if k = key then .cons k v rest else .cons k w (rest.set key v)

/-- Equality of fallible results is decidable. -/
instance instDecidableEqExcept {ε α : Type} [DecidableEq ε] [DecidableEq α] :
    DecidableEq (Except ε α)
  | .ok a, .ok b =>
    if h : a = b then isTrue (by rw [h]) else isFalse (by intro e; cases e; exact h rfl)
  | .error a, .error b =>
    if h : a = b then isTrue (by rw [h]) else isFalse (by intro e; cases e; exact h rfl)
  | .ok _, .error _ => isFalse (by intro e; cases e)
  | .error _, .ok _ => isFalse (by intro e; cases e)

/-- An `Error`-like object with the given `name` and `message`. -/
def mkError (name message : JsString) : JsVal :=
  .obj (.cons (lit "name") (.str name) (.cons (lit "message") (.str message) .nil))

/-- The `TypeError` raised by a property access on `null` or `undefined`. -/
def typeErrorNullish : JsVal :=
  mkError (lit "TypeError") (lit "Cannot read properties of null or undefined")

/-- Property access `v.key`, for the keys this program reads (`message`,
`name`, `code`, `options`, `timeout`, none of which a primitive has): it
throws on `null` and `undefined`, and yields `undefined` on other primitives. -/
def getProp (v : JsVal) (key : JsString) : Except JsVal JsVal :=
  match v with
  | .undefined => .error typeErrorNullish
  | .null => .error typeErrorNullish
  | .obj props => .ok (props.lookup key)
  | _ => .ok .undefined

/-- JavaScript truthiness. -/
def truthy : JsVal → Bool
  | .undefined => false
  | .null => false
  | .bool b => b
  | .num n => n != 0
  | .str s => !s.isEmpty
  | .obj _ => true

/-- Whether `typeof v === 'string'`. -/
def isString : JsVal → Bool
  | .str _ => true
  | _ => false

/-- String conversion as done by a template literal (plain objects print as
`[object Object]`). -/
def toJsString : JsVal → JsString
  | .undefined => lit "undefined"
  | .null => lit "null"
  | .bool true => lit "true"
  | .bool false => lit "false"
  | .num n => lit (toString n)
  | .str s => s
  | .obj _ => lit "[object Object]"

/-! ## The transport encoding

`atob` is a browser builtin: it is the forgiving-base64 decoder of the WHATWG
Infra standard.  The encoder is standard base64 with padding (RFC 4648, as
produced by `btoa` or `Buffer.toString('base64')`). -/

/-- The base64 character (a code unit) of a 6-bit value. -/
def base64Char (v : Nat) : Nat :=
  if v < 26 then 65 + v
  else if v < 52 then 71 + v
  else if v < 62 then v - 4
  else if v = 62 then 43
  else 47

/-- The 6-bit value of a base64 character; `none` outside the alphabet. -/
def base64Value (c : Nat) : Option Nat :=
  if 65 ≤ c ∧ c ≤ 90 then some (c - 65)
  else if 97 ≤ c ∧ c ≤ 122 then some (c - 71)
  else if 48 ≤ c ∧ c ≤ 57 then some (c + 4)
  else if c = 43 then some 62
  else if c = 47 then some 63
  else none

/-- Standard base64 encoding of a byte sequence, padded with `=` (code 61). -/
def base64Encode : List Nat → JsString
  | x :: y :: z :: rest =>
    base64Char (x / 4) :: base64Char (x % 4 * 16 + y / 16) ::
      base64Char (y % 16 * 4 + z / 64) :: base64Char (z % 64) :: base64Encode rest
  | [x, y] => [base64Char (x / 4), base64Char (x % 4 * 16 + y / 16), base64Char (y % 16 * 4), 61]
  | [x] => [base64Char (x / 4), base64Char (x % 4 * 16), 61, 61]
  | [] => []

/-- The 6-bit groups of a byte sequence, before they are mapped to characters. -/
def bytesToSextets : List Nat → List Nat
  | x :: y :: z :: rest =>
    x / 4 :: (x % 4 * 16 + y / 16) :: (y % 16 * 4 + z / 64) :: z % 64 :: bytesToSextets rest
  | [x, y] => [x / 4, x % 4 * 16 + y / 16, y % 16 * 4]
  | [x] => [x / 4, x % 4 * 16]
  | [] => []

/-- The padding that ends the encoding of a byte sequence. -/
def base64Padding : List Nat → JsString
  | _ :: _ :: _ :: rest => base64Padding rest
  | [_, _] => [61]
  | [_] => [61, 61]
  | [] => []

/-- ASCII whitespace: TAB, LF, FF, CR and SPACE. -/
def isAsciiWhitespace (c : Nat) : Bool :=
  c = 9 || c = 10 || c = 12 || c = 13 || c = 32

/-- When the length is a multiple of four, one or two trailing `=` are removed. -/
def stripPadding (data : JsString) : JsString :=
  if data.length % 4 = 0 then
    if data.getLast? = some 61 then
      if data.dropLast.getLast? = some 61 then data.dropLast.dropLast else data.dropLast
    else data
  else data

/-- The 6-bit values of a string; `none` when a character is outside the alphabet. -/
def sextetsOf : JsString → Option (List Nat)
  | [] => some []
  | c :: rest =>
    match base64Value c, sextetsOf rest with
    | some v, some vs => some (v :: vs)
    | _, _ => none

/-- Regroups 6-bit values into bytes: 24 bits give three bytes; of a final 18
bits the last two are dropped, of a final 12 bits the last four. -/
def decodeSextets : List Nat → List Nat
  | a :: b :: c :: d :: rest =>
    (a * 4 + b / 16) :: (b % 16 * 16 + c / 4) :: (c % 4 * 64 + d) :: decodeSextets rest
  | [a, b, c] => [a * 4 + b / 16, b % 16 * 16 + c / 4]
  | [a, b] => [a * 4 + b / 16]
  | [_] => []
  | [] => []

/-- Forgiving-base64 decode: strip whitespace, strip padding, reject a length
of 1 modulo 4 and any character outside the alphabet, then regroup the bits. -/
def forgivingBase64Decode (data : JsString) : Option (List Nat) :=
  let stripped := stripPadding (data.filter (fun c => !isAsciiWhitespace c))
  if stripped.length % 4 = 1 then none
  else
    match sextetsOf stripped with
    | none => none
    | some vs => some (decodeSextets vs)

/-- The `InvalidCharacterError` that `atob` raises on malformed input. -/
def invalidCharacterError : JsVal :=
  mkError (lit "InvalidCharacterError") (lit "The string to be decoded is not correctly encoded.")

/-- The builtin `atob`: each decoded byte becomes one character of the result. -/
def atob (data : JsString) : Except JsVal JsString :=
  match forgivingBase64Decode data with
  | none => .error invalidCharacterError
  | some bytes => .ok bytes

/-- The loop of `base64ToArrayBuffer`: a zero-filled `Uint8Array` of the
length of the string, whose element `i` is set to `charCodeAt(i)` (a
`Uint8Array` stores its value modulo 256). -/
def fillBytes (binaryString : JsString) : List Nat :=
  (List.range binaryString.length).foldl
    (fun bytes i => bytes.set i (binaryString.getD i 0 % 256))
    (List.replicate binaryString.length 0)

/-- `WasmRuntime.base64ToArrayBuffer`: the bytes of the buffer, or the value
thrown by `atob`. -/
def base64ToArrayBuffer (base64 : JsString) : Except JsVal (List Nat) :=
  match atob base64 with
  | .error e => .error e
  | .ok binaryString => .ok (fillBytes binaryString)

/-! ## The client execution host (`WasmRuntime.js`) -/

/-- The handle returned by `WebAssembly.instantiate`. -/
abbrev ModuleHandle := Nat

/-- A DOM element used as a rendering surface. -/
abbrev ContainerId := Nat

/-- The content of every rendering surface. -/
abbrev Dom := ContainerId → List JsString

/-- What a method of the companion object does: the DOM it leaves, and the
value it throws (or rejects with), if any. -/
structure MethodResult where
  dom : Dom
  thrown : Option JsVal

/-- The object built by `new window.SwiftUIWasmRuntime(module)`.  `tag` is
the identity of the object; `init` is its `initialize` method; `dispose` is
the optional teardown hook. -/
structure JsRuntimeObj where
  tag : Nat
  init : Dom → MethodResult
  render : ContainerId → Dom → MethodResult
  dispose : Option (Dom → MethodResult)

/-- A truthy value bound to `window.SwiftUIWasmRuntime`: what `new` does with
it (it throws when the value is not a constructor, or when the constructor throws). -/
structure EntryPoint where
  construct : ModuleHandle → Except JsVal JsRuntimeObj

/-- The observable effects, in the order they happen. -/
inductive Event where
  | instantiateCalled (binary : List Nat)
  | scriptInjected (code : JsString)
  | scriptError (v : JsVal)
  | constructCalled (m : ModuleHandle)
  | initCalled (tag : Nat)
  | initReturned (tag : Nat)
  | renderCalled (tag : Nat) (container : ContainerId)
  | renderReturned (tag : Nat) (container : ContainerId)
  | hookCalled (tag : Nat)
  | consoleError (label : JsString) (v : JsVal)
  deriving DecidableEq

/-- Events that come from running the companion script or from the console. -/
def Event.fromScript : Event → Bool
  | .scriptInjected _ => true
  | .scriptError _ => true
  | .consoleError _ _ => true
  | _ => false

/-- The browser state a runtime acts on: the global binding
`window.SwiftUIWasmRuntime` (`none` when absent or falsy), the script
elements in `document.head`, the removals scheduled with `setTimeout`, the
rendering surfaces, and the trace of effects so far. -/
structure World where
  entry : Option EntryPoint
  head : List JsString
  timers : List JsString
  dom : Dom
  trace : List Event

/-- Appends one effect to the trace. -/
def World.log (w : World) (e : Event) : World :=
  { w with trace := w.trace ++ [e] }

/-- The host platform.  `instantiate` is `WebAssembly.instantiate`;
`insertFault` is the value thrown by the DOM calls that create and insert the
script element, if they throw; `runScript` is what running the code in the
global scope does to the binding `window.SwiftUIWasmRuntime`, together with
the exception the script raised, if any (the browser reports it to the global
error handler: it does not reach the code that inserted the element). -/
structure Host where
  instantiate : List Nat → Except JsVal ModuleHandle
  insertFault : JsString → Option JsVal
  runScript : JsString → Option EntryPoint → Option EntryPoint × Option JsVal

/-- The fields of a `WasmRuntime`. -/
structure WasmRuntime where
  wasmModule : Option ModuleHandle
  jsRuntime : Option JsRuntimeObj
  isInitialized : Bool

/-- The constructor of `WasmRuntime`. -/
def WasmRuntime.new : WasmRuntime :=
  { wasmModule := none, jsRuntime := none, isInitialized := false }

/-- The object a load resolves to: `error` is `none` when the key is absent. -/
structure LoadResult where
  success : Bool
  error : Option JsVal
  deriving DecidableEq

/-- How an `async` call settles. -/
inductive Outcome where
  | resolved (r : LoadResult)
  | rejected (v : JsVal)
  deriving DecidableEq

/-- The result object of a load that succeeded. -/
def loadOk : Outcome := .resolved { success := true, error := none }

/-- The result object of a load that failed with the given message. -/
def loadFailed (message : JsString) : Outcome :=
  .resolved { success := false, error := some (.str message) }

/-- The error thrown when the entry point is missing. -/
def entryPointNotFound : JsVal :=
  mkError (lit "Error") (lit "SwiftUIWasmRuntime not found in compiled JavaScript")

/-- `WasmRuntime.executeJavaScript`: a script element with the code is
appended to `document.head` (which runs the code in the global scope) and its
removal is scheduled; a fault of the DOM calls is logged and rethrown as
`Failed to execute JavaScript: <message>`.  Returns the new world and the
value thrown, if any. -/
def executeJavaScript (h : Host) (w : World) (jsCode : JsString) : World × Option JsVal :=
  match h.insertFault jsCode with
  | some e =>
    let w1 := w.log (.consoleError (lit "JavaScript execution error:") e)
    match getProp e (lit "message") with
    | .error te => (w1, some te)
    | .ok m =>
      (w1, some (mkError (lit "Error") (lit "Failed to execute JavaScript: " ++ toJsString m)))
  | none =>
    let r := h.runScript jsCode w.entry
    let w1 : World :=
      { w with
        entry := r.1
        head := w.head ++ [jsCode]
        timers := w.timers ++ [jsCode]
        trace := w.trace ++ [.scriptInjected jsCode] }
    match r.2 with
    | some v => (w1.log (.scriptError v), none)
    | none => (w1, none)

/-- The `try` block of `WasmRuntime.loadAndExecute`: the runtime and world it
leaves, and the value thrown, if any. -/
def loadBody (h : Host) (rt : WasmRuntime) (w : World) (wasmBase64 jsCode : JsString)
    (container : ContainerId) : WasmRuntime × World × Option JsVal :=
  match base64ToArrayBuffer wasmBase64 with
  | .error e => (rt, w, some e)
  | .ok wasmBinary =>
    let w1 := w.log (.instantiateCalled wasmBinary)
    match h.instantiate wasmBinary with
    | .error e => (rt, w1, some e)
    | .ok m =>
      let rt1 := { rt with wasmModule := some m }
      match executeJavaScript h w1 jsCode with
      | (w2, some e) => (rt1, w2, some e)
      | (w2, none) =>
        match w2.entry with
        | none => (rt1, w2, some entryPointNotFound)
        | some ep =>
          let w3 := w2.log (.constructCalled m)
          match ep.construct m with
          | .error e => (rt1, w3, some e)
          | .ok j =>
            let rt2 := { rt1 with jsRuntime := some j }
            let ri := j.init w3.dom
            let w4 := { w3 with dom := ri.dom, trace := w3.trace ++ [.initCalled j.tag] }
            match ri.thrown with
            | some e => (rt2, w4, some e)
            | none =>
              let rr := j.render container w4.dom
              let w5 :=
                { w4 with
                  dom := rr.dom
                  trace := w4.trace ++ [.initReturned j.tag, .renderCalled j.tag container] }
              match rr.thrown with
              | some e => (rt2, w5, some e)
              | none =>
                ({ rt2 with isInitialized := true },
                  w5.log (.renderReturned j.tag container), none)

/-- `WasmRuntime.loadAndExecute`: the `try` block, then either
`{ success: true }` or the `catch` block, which logs the value and reads its
`message`.  That read throws on `null` and `undefined`, and the call rejects. -/
def loadAndExecute (h : Host) (rt : WasmRuntime) (w : World) (wasmBase64 jsCode : JsString)
    (container : ContainerId) : Outcome × WasmRuntime × World :=
  match loadBody h rt w wasmBase64 jsCode container with
  | (rt1, w1, none) => (.resolved { success := true, error := none }, rt1, w1)
  | (rt1, w1, some e) =>
    let w2 := w1.log (.consoleError (lit "WASM Runtime Error:") e)
    match getProp e (lit "message") with
    | .error te => (.rejected te, rt1, w2)
    | .ok m => (.resolved { success := false, error := some m }, rt1, w2)

/-- `WasmRuntime.dispose`: the teardown hook of the companion object is
called when there is one; then the three fields are reset.  When the hook
throws, the fields are left as they were and the value propagates. -/
def dispose (rt : WasmRuntime) (w : World) : WasmRuntime × World × Option JsVal :=
  match rt.jsRuntime with
  | some j =>
    match j.dispose with
    | some hook =>
      let r := hook w.dom
      let w1 := { w with dom := r.dom, trace := w.trace ++ [.hookCalled j.tag] }
      match r.thrown with
      | some e => (rt, w1, some e)
      | none => (WasmRuntime.new, w1, none)
    | none => (WasmRuntime.new, w, none)
  | none => (WasmRuntime.new, w, none)

/-! ## Concrete collaborators

A companion object that renders one line into its container, with or without
a teardown hook, and a host on which to run it. -/

/-- An empty page: no global binding, nothing rendered, nothing traced. -/
def emptyWorld : World :=
  { entry := none, head := [], timers := [], dom := fun _ => [], trace := [] }

/-- A companion object: `init` does nothing, `render` replaces the content
of the container by the line `view`, and there is no teardown hook. -/
def plainObj (tag : Nat) : JsRuntimeObj :=
  { tag := tag
    init := fun d => { dom := d, thrown := none }
    render := fun c d => { dom := Function.update d c [lit "view"], thrown := none }
    dispose := none }

/-- The same companion object with a teardown hook that leaves the DOM alone. -/
def hookedObj (tag : Nat) : JsRuntimeObj :=
  { plainObj tag with dispose := some (fun d => { dom := d, thrown := none }) }

/-- A companion object whose `init` throws `null`. -/
def nullThrowingObj (tag : Nat) : JsRuntimeObj :=
  { plainObj tag with init := fun d => { dom := d, thrown := some .null } }

/-- The `ReferenceError` of a script that calls a function nobody defined. -/
def referenceError : JsVal :=
  mkError (lit "ReferenceError") (lit "undefinedFunction is not defined")

/-- A host whose engine instantiates every binary (the handle is the length
of the binary) and never fails to insert a script.  It knows four scripts:
three bind `window.SwiftUIWasmRuntime` to a class (building `plainObj`,
`hookedObj`, `nullThrowingObj`, tagged with the module handle), one raises a
`ReferenceError`; any other code, the empty one included, leaves the binding
as it is. -/
def demoHost : Host :=
  { instantiate := fun binary => .ok binary.length
    insertFault := fun _ => none
    runScript := fun code g =>
      if code = lit "window.SwiftUIWasmRuntime = Plain" then
        (some { construct := fun m => .ok (plainObj m) }, none)
      else if code = lit "window.SwiftUIWasmRuntime = Hooked" then
        (some { construct := fun m => .ok (hookedObj m) }, none)
      else if code = lit "window.SwiftUIWasmRuntime = NullThrowing" then
        (some { construct := fun m => .ok (nullThrowingObj m) }, none)
      else if code = lit "undefinedFunction()" then
        (g, some referenceError)
      else (g, none) }


/-- A first load on an empty page: three bytes, a companion with a teardown hook. -/
def hookedLoad : Outcome × WasmRuntime × World :=
  loadAndExecute demoHost WasmRuntime.new emptyWorld (lit "TWFu")
    (lit "window.SwiftUIWasmRuntime = Hooked") 0

/-- A second load on the same runtime, without a `dispose` in between. -/
def hookedReload : Outcome × WasmRuntime × World :=
  loadAndExecute demoHost hookedLoad.2.1 hookedLoad.2.2 (lit "TQ==")
    (lit "window.SwiftUIWasmRuntime = Hooked") 0

/-- A first load on an empty page: three bytes, a companion without a hook. -/
def plainLoad : Outcome × WasmRuntime × World :=
  loadAndExecute demoHost WasmRuntime.new emptyWorld (lit "TWFu")
    (lit "window.SwiftUIWasmRuntime = Plain") 0

/-- The runtime of `plainLoad`, disposed. -/
def plainDisposed : WasmRuntime × World × Option JsVal :=
  dispose plainLoad.2.1 plainLoad.2.2

/-- A load after `plainDisposed` whose companion code is empty. -/
def staleLoad : Outcome × WasmRuntime × World :=
  loadAndExecute demoHost plainDisposed.1 plainDisposed.2.1 (lit "TQ==") [] 0

/-- A runtime in the state a successful load leaves, holding a companion
object with a teardown hook. -/
def loadedRuntime : WasmRuntime :=
  { wasmModule := some 3, jsRuntime := some (hookedObj 3), isInitialized := true }

/-- A load on an empty page whose companion object throws `null` from `init`. -/
def nullThrowingLoad : Outcome × WasmRuntime × World :=
  loadAndExecute demoHost WasmRuntime.new emptyWorld (lit "TWFu")
    (lit "window.SwiftUIWasmRuntime = NullThrowing") 0

/-- A load on an empty page whose companion script raises a `ReferenceError`. -/
def brokenScriptLoad : Outcome × WasmRuntime × World :=
  loadAndExecute demoHost WasmRuntime.new emptyWorld (lit "TWFu") (lit "undefinedFunction()") 0

/-- A load on an empty page whose companion code is empty. -/
def emptyScriptLoad : Outcome × WasmRuntime × World :=
  loadAndExecute demoHost WasmRuntime.new emptyWorld (lit "TWFu") [] 0

/-- A companion object whose `render` throws an `Error`. -/
def renderFailingObj (tag : Nat) : JsRuntimeObj :=
  { plainObj tag with
    render := fun _ d =>
      { dom := d, thrown := some (mkError (lit "Error") (lit "render failed")) } }

/-- The host `demoHost` with one more script, which binds
`window.SwiftUIWasmRuntime` to a class building `renderFailingObj`. -/
def renderFailingHost : Host :=
  { demoHost with
    runScript := fun code g =>
      if code = lit "window.SwiftUIWasmRuntime = RenderFailing" then
        (some { construct := fun m => .ok (renderFailingObj m) }, none)
      else demoHost.runScript code g }

/-- A load on an empty page whose companion object throws from `render`. -/
def renderFailingLoad : Outcome × WasmRuntime × World :=
  loadAndExecute renderFailingHost WasmRuntime.new emptyWorld (lit "TWFu")
    (lit "window.SwiftUIWasmRuntime = RenderFailing") 0

/-- The same empty companion code on a fresh page, where no earlier load has
left a binding. -/
def freshEmptyLoad : Outcome × WasmRuntime × World :=
  loadAndExecute demoHost WasmRuntime.new emptyWorld (lit "TQ==") [] 0

/-! ## The compile endpoint (`server.js`) -/

/-- Object spread `{ ...target, ...source }` on property lists: every
property of the source is assigned, in order. -/
def JsProps.assign (target : JsProps) : JsProps → JsProps
  | .nil => target
  | .cons k v rest => (target.set k v).assign rest

/-- The own enumerable properties that a spread `...v` copies: those of an
object, the indexed characters of a string, nothing for other primitives. -/
def spreadProps : JsVal → JsProps
  | .obj props => props
  | .str s =>
    (List.range s.length).foldr
      (fun i acc => JsProps.cons (lit (toString i)) (JsVal.str [s.getD i 0]) acc) JsProps.nil
  | _ => .nil

/-- The compile worker (`compile-worker/CompileWorker.js`), a collaborator of
the endpoint: what its `hashCode` and `compile` methods return or throw. -/
structure CompileWorker where
  hashCode : JsString → Except JsVal JsVal
  compile : JsString → JsVal → Except JsVal JsVal

/-- A call of the endpoint into the compile worker. -/
inductive WorkerCall where
  | hashCode (code : JsString)
  | compile (code : JsString) (options : JsVal)
  deriving DecidableEq

/-- A JSON response: `res.status(status).json(body)`. -/
structure Response where
  status : Nat
  body : JsVal
  deriving DecidableEq

/-- What one run of a request handler did: the responses it sent, the calls
it made into the worker, and the exception that left the handler, if any. -/
structure HandlerResult where
  responses : List Response
  calls : List WorkerCall
  escaped : Option JsVal
  deriving DecidableEq

/-- An object `{ error, message }`. -/
def errorBody (error message : JsVal) : JsVal :=
  .obj (.cons (lit "error") error (.cons (lit "message") message .nil))

/-- The 400 response of the compile endpoint. -/
def invalidCodeResponse : Response :=
  { status := 400
    body := errorBody (.str (lit "Invalid code parameter"))
      (.str (lit "Code must be a non-empty string")) }

/-- The 413 response of the compile endpoint. -/
def codeTooLargeResponse : Response :=
  { status := 413
    body := errorBody (.str (lit "Code too large")) (.str (lit "Code must be less than 50KB")) }

/-- The 408 response of the compile endpoint. -/
def timeoutResponse : Response :=
  { status := 408
    body := errorBody (.str (lit "Compilation timeout"))
      (.str (lit "Compilation took too long, please simplify your code")) }

/-- The code units of a string value (empty for any other value). -/
def JsVal.units : JsVal → JsString
  | .str s => s
  | _ => []

/-- The `try` block of the `/api/compile` handler on the parsed request body:
the worker calls made, and the response sent or the value thrown. -/
def compileTry (worker : CompileWorker) (body : JsVal) :
    List WorkerCall × Except JsVal Response :=
  match getProp body (lit "code"), getProp body (lit "options") with
  | .error e, _ => ([], .error e)
  | _, .error e => ([], .error e)
  | .ok code, .ok optionsField =>
    let options := if optionsField = .undefined then JsVal.obj .nil else optionsField
    if !truthy code || !isString code then ([], .ok invalidCodeResponse)
    else if code.units.length > 50000 then ([], .ok codeTooLargeResponse)
    else
      match worker.hashCode code.units with
      | .error e => ([.hashCode code.units], .error e)
      | .ok _ =>
        match getProp options (lit "timeout") with
        | .error e => ([.hashCode code.units], .error e)
        | .ok t =>
          let timeout := if truthy t then t else JsVal.num 10000
          let compileOptions :=
            JsVal.obj ((JsProps.cons (lit "timeout") timeout .nil).assign (spreadProps options))
          match worker.compile code.units compileOptions with
          | .error e => ([.hashCode code.units, .compile code.units compileOptions], .error e)
          | .ok result =>
            ([.hashCode code.units, .compile code.units compileOptions],
              .ok { status := 200, body := result })

/-- The `/api/compile` handler: the `try` block, then the `catch` block,
which answers 408 when the `name` of the thrown value is `TimeoutError` and
500 otherwise.  Reading `name` throws on `null` and `undefined`, and the
exception leaves the handler. -/
def compileHandler (worker : CompileWorker) (body : JsVal) : HandlerResult :=
  match compileTry worker body with
  | (calls, .ok response) => { responses := [response], calls := calls, escaped := none }
  | (calls, .error e) =>
    match getProp e (lit "name") with
    | .error te => { responses := [], calls := calls, escaped := some te }
    | .ok name =>
      if name = .str (lit "TimeoutError") then
        { responses := [timeoutResponse], calls := calls, escaped := none }
      else
        match getProp e (lit "message") with
        | .error te => { responses := [], calls := calls, escaped := some te }
        | .ok message =>
          { responses :=
              [{ status := 500
                 body := errorBody (.str (lit "Compilation failed"))
                   (if truthy message then message
                    else .str (lit "Unknown compilation error")) }]
            calls := calls
            escaped := none }

/-- A compile worker that answers every call. -/
def stubWorker : CompileWorker :=
  { hashCode := fun _ => .ok (.str (lit "hash"))
    compile := fun _ _ => .ok (.obj (.cons (lit "success") (.bool true) .nil)) }

/-- A request body `{ code }`. -/
def codeBody (code : JsVal) : JsVal := .obj (.cons (lit "code") code .nil)

/-- A source text of exactly 50000 characters. -/
def code50000 : JsString := List.replicate 50000 97

/-- The `options` of a request body after the default `= {}` of the
destructuring, which applies when the field is `undefined`. -/
def requestOptions (props : JsProps) : JsVal :=
  if props.lookup (lit "options") = .undefined then .obj .nil else props.lookup (lit "options")

/-- The object `{ timeout: t || 10000, ...options }` passed to `compile`,
where `t` is `options.timeout`. -/
def compileOptions (options t : JsVal) : JsVal :=
  .obj ((JsProps.cons (lit "timeout") (if truthy t then t else .num 10000) .nil).assign
    (spreadProps options))

/-- The 500 response of the compile endpoint, for the `message` of the value
caught: `message || 'Unknown compilation error'`. -/
def compilationFailedResponse (message : JsVal) : Response :=
  { status := 500
    body := errorBody (.str (lit "Compilation failed"))
      (if truthy message then message else .str (lit "Unknown compilation error")) }

/-- A compile worker whose `compile` throws (rejects with) the given value. -/
def throwingWorker (e : JsVal) : CompileWorker :=
  { hashCode := fun _ => .ok (.str (lit "hash"))
    compile := fun _ _ => .error e }

/-- A request body `{ code, options }`. -/
def codeOptionsBody (code options : JsVal) : JsVal :=
  .obj (.cons (lit "code") code (.cons (lit "options") options .nil))

/-- An options object `{ timeout }`. -/
def timeoutOption (t : JsVal) : JsVal := .obj (.cons (lit "timeout") t .nil)

/-! ## The telemetry service (`TelemetryService.js`) -/

/-- Whether an object has the key (`key in o`, for own properties). -/
def JsProps.has : JsProps → JsString → Bool
  | .nil, _ => false
  | .cons k _ rest, key => if k = key then true else rest.has key

/-- The statement `delete o[key]`. -/
def JsProps.delete : JsProps → JsString → JsProps
  | .nil, _ => .nil
  | .cons k v rest, key => if k = key then rest.delete key else .cons k v (rest.delete key)

/-- The keys of an object: `Object.keys(o)`. -/
def JsProps.keys : JsProps → List JsString
  | .nil => []
  | .cons k _ rest => k :: rest.keys

/-- The keys that `sanitizeProperties` removes. -/
def sensitiveKeys : List JsString :=
  [lit "code", lit "source", lit "content", lit "password", lit "token", lit "key",
    lit "secret", lit "email", lit "phone", lit "address", lit "ssn", lit "credit", lit "card"]

/-- The string `s.substring(0, 100) + '...'`. -/
def truncateString (s : JsString) : JsString := s.take 100 ++ lit "..."

/-- One round of the truncation loop: the value under `key` is replaced when
it is a string of more than 100 characters. -/
def truncateKey (sanitized : JsProps) (key : JsString) : JsProps :=
  match sanitized.lookup key with
  | .str s => if s.length > 100 then sanitized.set key (.str (truncateString s)) else sanitized
  | _ => sanitized

/-- `TelemetryService.sanitizeProperties`: a copy of the properties, from
which the sensitive keys are deleted and in which long strings are truncated. -/
def sanitizeProperties (properties : JsVal) : JsProps :=
  let copied := spreadProps properties
  let sanitized := sensitiveKeys.foldl JsProps.delete copied
  sanitized.keys.foldl truncateKey sanitized

/-- A stored telemetry event. -/
structure TelemetryEvent where
  id : JsString
  event : JsVal
  properties : JsProps
  timestamp : JsString
  deriving DecidableEq

/-- The fields of a `TelemetryService`. -/
structure TelemetryService where
  events : List TelemetryEvent
  maxEvents : Nat
  deriving DecidableEq

/-- The constructor of `TelemetryService`. -/
def TelemetryService.new : TelemetryService := { events := [], maxEvents := 10000 }

/-- The call `xs.slice(-n)`: the last `n` elements, and the whole array when
`n` is 0 (`-0` is `0`). -/
def sliceLast {α : Type} (n : Nat) (xs : List α) : List α :=
  if n = 0 then xs else xs.drop (xs.length - n)

/-- What the clock and the random generator give to one call of `track`:
the result of `generateId()` and of `new Date().toISOString()`. -/
structure Stamp where
  id : JsString
  timestamp : JsString
  deriving DecidableEq

/-- The event that `track` builds. -/
def makeEvent (stamp : Stamp) (event properties : JsVal) : TelemetryEvent :=
  { id := stamp.id
    event := event
    properties := sanitizeProperties (if properties = .undefined then .obj .nil else properties)
    timestamp := stamp.timestamp }

/-- `TelemetryService.track`: the event is pushed, and the list is cut back
to its last `maxEvents` elements when it has become longer. -/
def track (svc : TelemetryService) (stamp : Stamp) (event properties : JsVal) :
    TelemetryService :=
  let events := svc.events ++ [makeEvent stamp event properties]
  if events.length > svc.maxEvents then { svc with events := sliceLast svc.maxEvents events }
  else { svc with events := events }

/-- A sequence of `track` calls, each with its stamp, event and properties. -/
def trackAll (svc : TelemetryService) (calls : List (Stamp × JsVal × JsVal)) :
    TelemetryService :=
  calls.foldl (fun s c => track s c.1 c.2.1 c.2.2) svc

/-- The value that the truncation loop leaves for a value. -/
def truncateValue : JsVal → JsVal
  | .str s => if s.length > 100 then .str (truncateString s) else .str s
  | v => v

mutual
/-- Whether a value holds the key at any nesting depth. -/
def JsVal.hasKeyDeep : JsVal → JsString → Bool
  | .obj props, key => props.hasKeyDeep key
  | _, _ => false
/-- Whether a property list holds the key at any nesting depth. -/
def JsProps.hasKeyDeep : JsProps → JsString → Bool
  | .nil, _ => false
  | .cons k v rest, key => k = key || v.hasKeyDeep key || rest.hasKeyDeep key
end

/-- What the telemetry endpoint reads from the request and the clock:
`req.ip`, `req.get('User-Agent')` and `new Date().toISOString()`. -/
structure RequestInfo where
  ip : JsVal
  userAgent : JsVal
  now : JsString

/-- The 400 response of the telemetry endpoint. -/
def invalidEventResponse : Response :=
  { status := 400
    body := .obj (.cons (lit "error") (.str (lit "Invalid event parameter")) .nil) }

/-- The response of the telemetry endpoint on success. -/
def telemetryOkResponse : Response :=
  { status := 200, body := .obj (.cons (lit "status") (.str (lit "ok")) .nil) }

/-- The 500 response of the telemetry endpoint. -/
def telemetryFailedResponse : Response :=
  { status := 500
    body := errorBody (.str (lit "Telemetry failed")) (.str (lit "Failed to record telemetry")) }

/-- The `try` block of the `/api/telemetry` handler: the service it leaves,
and the response sent or the value thrown. -/
def telemetryTry (req : RequestInfo) (stamp : Stamp) (svc : TelemetryService) (body : JsVal) :
    TelemetryService × Except JsVal Response :=
  match getProp body (lit "event"), getProp body (lit "properties") with
  | .error e, _ => (svc, .error e)
  | _, .error e => (svc, .error e)
  | .ok event, .ok propertiesField =>
    let properties := if propertiesField = .undefined then JsVal.obj .nil else propertiesField
    if !truthy event || !isString event then (svc, .ok invalidEventResponse)
    else
      let spread :=
        (((spreadProps properties).set (lit "ip") req.ip).set (lit "userAgent") req.userAgent).set
          (lit "timestamp") (.str req.now)
      let sanitizedProperties :=
        ((spread.delete (lit "code")).delete (lit "source")).delete (lit "content")
      (track svc stamp event (.obj sanitizedProperties), .ok telemetryOkResponse)

/-- The `/api/telemetry` handler: the `try` block, and the 500 response of
the `catch` block. -/
def telemetryHandler (req : RequestInfo) (stamp : Stamp) (svc : TelemetryService)
    (body : JsVal) : TelemetryService × Response :=
  match telemetryTry req stamp svc body with
  | (svc1, .ok response) => (svc1, response)
  | (svc1, .error _) => (svc1, telemetryFailedResponse)

/-- A request from a local client. -/
def demoRequest : RequestInfo :=
  { ip := .str (lit "127.0.0.1"), userAgent := .str (lit "curl"), now := lit "2024-01-01T00:00:00.000Z" }

/-- A stamp. -/
def demoStamp : Stamp := { id := lit "id1", timestamp := lit "2024-01-01T00:00:00.001Z" }

/-- A telemetry body whose properties hold source text one level down:
`{ event: 'run_error', properties: { detail: { code: 'let secret = 1' } } }`. -/
def nestedCodeBody : JsVal :=
  .obj (.cons (lit "event") (.str (lit "run_error"))
    (.cons (lit "properties")
      (.obj (.cons (lit "detail")
        (.obj (.cons (lit "code") (.str (lit "let secret = 1")) .nil)) .nil)) .nil))

/-! ## The compile service of the client (`CompileService.js`) -/

/-- The browser as `sendTelemetry` uses it: `JSON.stringify`, which throws
on a value it cannot serialise, and `fetch`, which resolves with a response
(of any status) or rejects. -/
structure Network where
  stringify : JsVal → Except JsVal JsString
  fetch : JsString → JsString → Except JsVal Response

/-- An effect of the client service. -/
inductive ClientEvent where
  | fetchCalled (url body : JsString)
  | consoleWarn (label : JsString) (v : JsVal)
  deriving DecidableEq

/-- How an `async` method that returns nothing settles. -/
inductive Settled where
  | resolved
  | rejected (v : JsVal)
  deriving DecidableEq

/-- `CompileService.sendTelemetry`: the body `{ event, properties }` is
serialised and posted to `/api/telemetry`; whatever is thrown on the way is
caught and logged with `console.warn`. -/
def sendTelemetry (net : Network) (baseURL : JsString) (event properties : JsVal) :
    Settled × List ClientEvent :=
  let props := if properties = .undefined then JsVal.obj .nil else properties
  let payload := JsVal.obj (.cons (lit "event") event (.cons (lit "properties") props .nil))
  match net.stringify payload with
  | .error e => (.resolved, [.consoleWarn (lit "Telemetry failed:") e])
  | .ok body =>
    match net.fetch (baseURL ++ lit "/api/telemetry") body with
    | .error e =>
      (.resolved,
        [.fetchCalled (baseURL ++ lit "/api/telemetry") body,
          .consoleWarn (lit "Telemetry failed:") e])
    | .ok _ => (.resolved, [.fetchCalled (baseURL ++ lit "/api/telemetry") body])

/-! ## Pages and the router (`app.js`, `PreviewPage.js`, `HomePage.js`) -/

/-- The editor wrapper of a preview page, as its owner sees it at teardown:
the value its `dispose()` throws, if it throws. -/
structure MonacoEditor where
  disposeFault : Option JsVal

/-- The fields of a `PreviewPage` that its lifecycle touches. -/
structure PreviewPage where
  wasmRuntime : Option WasmRuntime
  monacoEditor : Option MonacoEditor

/-- The constructor of `PreviewPage`: a new runtime, no editor yet. -/
def PreviewPage.new : PreviewPage :=
  { wasmRuntime := some WasmRuntime.new, monacoEditor := none }

/-- The two page classes of the routing table. -/
inductive PageKind where
  | home
  | preview
  deriving DecidableEq

/-- A page object; `id` is its identity. -/
inductive Page where
  | home (id : Nat)
  | preview (id : Nat) (page : PreviewPage)

/-- The identity of a page object. -/
def Page.id : Page → Nat
  | .home id => id
  | .preview id _ => id

/-- The effects of a navigation, in the order they happen. -/
inductive NavEvent where
  | destroyCalled (id : Nat)
  | editorDisposed (id : Nat)
  | containerCleared (container : ContainerId)
  | constructed (id : Nat) (kind : PageKind)
  | rendered (id : Nat)
  | historyPushed (path : JsString)
  deriving DecidableEq

/-- `PreviewPage.destroy`: the runtime is disposed when there is one, then the
editor when there is one.  Returns the page and world it leaves, the events,
and the value thrown, if any. -/
def PreviewPage.destroy (id : Nat) (page : PreviewPage) (w : World) :
    PreviewPage × World × List NavEvent × Option JsVal :=
  let afterRuntime : PreviewPage × World × Option JsVal :=
    match page.wasmRuntime with
    | some rt =>
      match dispose rt w with
      | (rt1, w1, thrown) => ({ page with wasmRuntime := some rt1 }, w1, thrown)
    | none => (page, w, none)
  match afterRuntime with
  | (page1, w1, some e) => (page1, w1, [], some e)
  | (page1, w1, none) =>
    match page1.monacoEditor with
    | some editor =>
      match editor.disposeFault with
      | some e => (page1, w1, [], some e)
      | none => (page1, w1, [.editorDisposed id], none)
    | none => (page1, w1, [], none)

/-- The call `page.destroy()`; `HomePage.destroy` does nothing. -/
def Page.destroy (page : Page) (w : World) : Page × World × List NavEvent × Option JsVal :=
  match page with
  | .home id => (.home id, w, [.destroyCalled id], none)
  | .preview id p =>
    match PreviewPage.destroy id p w with
    | (p1, w1, events, thrown) => (.preview id p1, w1, .destroyCalled id :: events, thrown)

/-- The fields of the `Router`; `nextId` is the identity that the next page
object gets. -/
structure Router where
  currentPage : Option Page
  container : Option ContainerId
  nextId : Nat

/-- The lookup `this.routes[path] || this.routes['/']`, for the paths of a
location (they begin with a slash, so no inherited property is hit). -/
def routeKind (path : JsString) : PageKind :=
  if path = lit "/preview" then .preview else .home

/-- The expression `new Page()` followed by `render(container)`: the page
object after its `render`.  A preview page creates its editor wrapper in
`render`, before the first suspension of `initializeEditor`. -/
def renderedPage (editor : MonacoEditor) (kind : PageKind) (id : Nat) : Page :=
  match kind with
  | .home => .home id
  | .preview => .preview id { PreviewPage.new with monacoEditor := some editor }

/-- The markup a page writes into the container. -/
def pageMarkup : PageKind → List JsString
  | .home => [lit "home-page"]
  | .preview => [lit "preview-page"]

/-- The result of one `navigate` call: the router and world it leaves, the
previously current page as its `destroy` left it, the events, and the value
thrown, if any. -/
structure NavResult where
  router : Router
  world : World
  previous : Option Page
  events : List NavEvent
  thrown : Option JsVal

/-- `Router.navigate`: the current page is destroyed, the container is
emptied, the page of the route is constructed and rendered, and the history
is pushed when the path is not the current location.  `editor` is the editor
wrapper a new preview page creates; `location` is `window.location.pathname`. -/
def navigate (editor : MonacoEditor) (location : JsString) (r : Router) (w : World)
    (path : JsString) : NavResult :=
  let kind := routeKind path
  let destroyed : Option Page × World × List NavEvent × Option JsVal :=
    match r.currentPage with
    | some page =>
      match page.destroy w with
      | (page1, w1, events, thrown) => (some page1, w1, events, thrown)
    | none => (none, w, [], none)
  match destroyed with
  | (previous, w1, events, some e) =>
    { router := { r with currentPage := previous }, world := w1, previous := previous,
      events := events, thrown := some e }
  | (previous, w1, events, none) =>
    match r.container with
    | none =>
      { router := { r with currentPage := previous }, world := w1, previous := previous,
        events := events, thrown := some typeErrorNullish }
    | some c =>
      { router :=
          { currentPage := some (renderedPage editor kind r.nextId)
            container := some c
            nextId := r.nextId + 1 }
        world := { w1 with dom := Function.update w1.dom c (pageMarkup kind) }
        previous := previous
        events := events ++
          ([.containerCleared c, .constructed r.nextId kind, .rendered r.nextId] ++
            (if path = location then [] else [.historyPushed path]))
        thrown := none }

/-- An editor wrapper whose `dispose` returns. -/
def quietEditor : MonacoEditor := { disposeFault := none }

/-- A router showing a preview page (object 7) whose runtime holds a loaded
session with a teardown hook. -/
def previewRouter : Router :=
  { currentPage := some (.preview 7
      { wasmRuntime := some loadedRuntime, monacoEditor := some quietEditor })
    container := some 0
    nextId := 8 }

/-! ## The compile pipeline behind `compileWorker.compile`

`compile-worker/CompileWorker.js` is not part of the sources at hand.  The
definitions of this section are written from sections 3 and 4 of the
specification, for one caller at a time. -/

/-- Modelled from the spec: the `CompileResult` of section 3 (the module
`compile-worker/CompileWorker.js` is missing). -/
structure CompileResult where
  success : Bool
  artifact : Option (List Nat)
  companionCode : Option JsString
  logs : List JsString
  warnings : List JsString
  compilationTimeMs : Nat
  cached : Bool
  deriving DecidableEq

/-- Modelled from the spec: what the toolchain collaborator of section 6
gives back for one invocation (missing: `compile-worker/CompileWorker.js`).
It finishes with a status, an artifact, companion code and its output lines,
or it is terminated at the deadline, or it cannot be launched. -/
inductive ToolchainOutcome where
  | finished (success : Bool) (artifact : Option (List Nat)) (companionCode : Option JsString)
      (stdout stderr : List JsString) (elapsedMs : Nat)
  | timedOut (elapsedMs : Nat)
  | launchFailed
  deriving DecidableEq

/-- Modelled from the spec: the fatal error kind of section 4.4, raised when
the toolchain cannot be launched (missing: `compile-worker/CompileWorker.js`). -/
inductive InfrastructureFault where
  | launchFailed
  deriving DecidableEq

/-- Modelled from the spec: a fingerprint of section 3, a fixed-length digest
(missing: `compile-worker/CompileWorker.js`). -/
abbrev Fingerprint := List Nat

/-- Modelled from the spec: the collaborators and bounds of the pipeline
(missing: `compile-worker/CompileWorker.js`).  `hash` is the Content Hasher
of section 4.1, a pure function; `toolchain` is the external compiler, whose
answer may differ from one invocation to the next (the first argument counts
the invocations); `outputCap` is the size cap of section 4.4; `capacity` is
the entry bound of the cache of section 4.2. -/
structure PipelineConfig where
  hash : JsString → JsVal → Fingerprint
  toolchain : Nat → JsString → JsVal → ToolchainOutcome
  outputCap : Nat
  capacity : Nat

/-- Modelled from the spec: the Result Cache of section 4.2 (missing:
`compile-worker/CompileWorker.js`).  The entries are kept in the order of
their last access, the most recent first; that order stands for `lastAccess`. -/
structure ResultCache where
  entries : List (Fingerprint × CompileResult)
  deriving DecidableEq

/-- Modelled from the spec: `get` of section 4.2 (missing:
`compile-worker/CompileWorker.js`).  A hit makes the entry the most recently
used one. -/
def ResultCache.get (c : ResultCache) (fp : Fingerprint) : Option CompileResult × ResultCache :=
  match c.entries.find? (fun e => e.1 = fp) with
  | none => (none, c)
  | some e => (some e.2, { entries := e :: c.entries.filter (fun x => x.1 ≠ fp) })

/-- Modelled from the spec: `put` of section 4.2 (missing:
`compile-worker/CompileWorker.js`).  The entry replaces the one of the same
fingerprint; the least recently used entries are evicted until the cache is
under capacity, then the entry is inserted.  A cache of capacity 0 stores
nothing. -/
def ResultCache.put (capacity : Nat) (c : ResultCache) (fp : Fingerprint) (r : CompileResult) :
    ResultCache :=
  if capacity = 0 then c
  else { entries := (fp, r) :: ((c.entries.filter (fun x => x.1 ≠ fp)).take (capacity - 1)) }

/-- Modelled from the spec: the Result Packager of section 4.5 with the
output cap of section 4.4 (missing: `compile-worker/CompileWorker.js`).  The
result of a compilation always has `cached = false`; output over the cap is a
failure; a timeout discards the output. -/
def packageResult (outputCap : Nat) : ToolchainOutcome → CompileResult
  | .finished success artifact companionCode stdout stderr elapsedMs =>
    let artifactSize := (artifact.map List.length).getD 0
    let companionSize := (companionCode.map List.length).getD 0
    if success && decide (artifactSize ≤ outputCap) && decide (companionSize ≤ outputCap) then
      { success := true, artifact := artifact, companionCode := companionCode, logs := stdout,
        warnings := stderr, compilationTimeMs := elapsedMs, cached := false }
    else
      { success := false, artifact := none, companionCode := none, logs := stdout,
        warnings := stderr, compilationTimeMs := elapsedMs, cached := false }
  | .timedOut elapsedMs =>
    { success := false, artifact := none, companionCode := none, logs := [], warnings := [],
      compilationTimeMs := elapsedMs, cached := false }
  | .launchFailed =>
    { success := false, artifact := none, companionCode := none, logs := [], warnings := [],
      compilationTimeMs := 0, cached := false }

/-- Modelled from the spec: the state of the pipeline between submissions
(missing: `compile-worker/CompileWorker.js`): the cache, and the number of
toolchain invocations so far. -/
structure Pipeline where
  cache : ResultCache
  invocations : Nat
  deriving DecidableEq

/-- Modelled from the spec: `submit` of section 4.3 for one caller at a time
(missing: `compile-worker/CompileWorker.js`).  A cache hit is returned with
`cached = true`; on a miss the toolchain is invoked, and the packaged result
is stored only when `success = true`. -/
def submit (cfg : PipelineConfig) (p : Pipeline) (sourceText : JsString) (options : JsVal) :
    Except InfrastructureFault CompileResult × Pipeline :=
  let fp := cfg.hash sourceText options
  match p.cache.get fp with
  | (some r, cache1) => (.ok { r with cached := true }, { p with cache := cache1 })
  | (none, _) =>
    match cfg.toolchain p.invocations sourceText options with
    | .launchFailed => (.error .launchFailed, { p with invocations := p.invocations + 1 })
    | outcome =>
      let r := packageResult cfg.outputCap outcome
      ((.ok r : Except InfrastructureFault CompileResult),
        { cache := if r.success then p.cache.put cfg.capacity fp r else p.cache
          invocations := p.invocations + 1 })

/-- A pipeline with an empty cache that has not invoked the toolchain. -/
def Pipeline.new : Pipeline := { cache := { entries := [] }, invocations := 0 }

/-- A configuration whose toolchain reports a compile error for every input. -/
def failingConfig : PipelineConfig :=
  { hash := fun sourceText _ => sourceText
    toolchain := fun _ _ _ => .finished false none none [lit "error: expected expression"] [] 12
    outputCap := 1000
    capacity := 8 }

/-- A configuration whose toolchain compiles every input to a one-byte artifact. -/
def workingConfig : PipelineConfig :=
  { failingConfig with
    toolchain := fun _ _ _ => .finished true (some [0]) (some (lit "glue")) [] [] 12 }

/-- Modelled from the spec: the state the pipeline keeps by section 4.3,
step 4, where only `success = true` results are stored (missing:
`compile-worker/CompileWorker.js`): every cached result is a success. -/
def Pipeline.holdsSuccesses (p : Pipeline) : Bool :=
  p.cache.entries.all (fun e => e.2.success)

/-- A load on the runtime that `plainLoad` left Ready, with an artifact that
is not base64. -/
def staleFlagLoad : Outcome × WasmRuntime × World :=
  loadAndExecute demoHost plainLoad.2.1 plainLoad.2.2 (lit "T") [] 0

/-- The two objects alive during a call of `sanitizeProperties`: the argument
`properties` and the local `sanitized`. -/
structure SanitizeState where
  properties : JsVal
  sanitized : JsProps
  deriving DecidableEq

/-- `TelemetryService.sanitizeProperties`, statement by statement, on the two
objects: the spread makes `sanitized` a new object, and every `delete` and
every assignment of the two loops names `sanitized`. -/
def sanitizeRun (properties : JsVal) : SanitizeState :=
  let s0 : SanitizeState := { properties := properties, sanitized := spreadProps properties }
  let s1 := sensitiveKeys.foldl
    (fun (s : SanitizeState) key => { s with sanitized := s.sanitized.delete key }) s0
  s1.sanitized.keys.foldl
    (fun (s : SanitizeState) key => { s with sanitized := truncateKey s.sanitized key }) s1

/-! ## Object literals and `Object.prototype`

An object literal inherits from `Object.prototype`: a read `o[key]` of a key
that `o` does not own finds the member of `Object.prototype` of that name,
when there is one. -/

/-- The property names of `Object.prototype`. -/
def objectPrototypeKeys : List JsString :=
  [lit "constructor", lit "__defineGetter__", lit "__defineSetter__", lit "hasOwnProperty",
    lit "__lookupGetter__", lit "__lookupSetter__", lit "isPrototypeOf",
    lit "propertyIsEnumerable", lit "toString", lit "valueOf", lit "__proto__",
    lit "toLocaleString"]

/-! ## The statistics of the telemetry service (`TelemetryService.getStats`) -/

/-- What `getStats` takes from the platform: `Date.now()`, the milliseconds of
`new Date(timestamp).getTime()` (`none` is `NaN`), and the string conversion of
the member of `Object.prototype` under a key (the text of a builtin function). -/
structure StatsClock where
  now : Int
  getTime : JsString → Option Int
  memberText : JsString → JsString

/-- The object that `getStats` returns (`lastEvent` is `none` for `undefined`). -/
structure Stats where
  totalEvents : Nat
  recentEvents : Nat
  dailyEvents : Nat
  eventTypes : JsProps
  lastEvent : Option TelemetryEvent
  deriving DecidableEq

/-- The predicate of the two filters: `now - new Date(e.timestamp).getTime() < span`,
false when the time is `NaN`. -/
def withinSpan (clock : StatsClock) (span : Int) (e : TelemetryEvent) : Bool :=
  match clock.getTime e.timestamp with
  | some t => decide (clock.now - t < span)
  | none => false

/-- The expression `(v || 0) + 1` for an own value `v` of `eventCounts`. -/
def orZeroPlusOne : JsVal → JsVal
  | .num n => if n = 0 then .num 1 else .num (n + 1)
  | .str s => if s = [] then .num 1 else .str (s ++ lit "1")
  | .undefined => .num 1
  | .null => .num 1
  | .bool false => .num 1
  | .bool true => .num 2
  | .obj _ => .str (lit "[object Object]1")

/-- One round of the `forEach` of `getStats`:
`eventCounts[event.event] = (eventCounts[event.event] || 0) + 1`.
The read finds an own count, or else a member of `Object.prototype` (truthy,
so that `+ 1` appends to its text), or else `undefined`.  The write makes an
own property, but for `__proto__`, whose setter drops a string. -/
def countEvent (clock : StatsClock) (eventCounts : JsProps) (event : TelemetryEvent) : JsProps :=
  let key := toJsString event.event
  if eventCounts.has key then eventCounts.set key (orZeroPlusOne (eventCounts.lookup key))
  else if key = lit "__proto__" then eventCounts
  else if key ∈ objectPrototypeKeys then eventCounts.set key (.str (clock.memberText key ++ lit "1"))
  else eventCounts.set key (.num 1)

/-- `TelemetryService.getStats`. -/
def getStats (clock : StatsClock) (svc : TelemetryService) : Stats :=
  let oneHour : Int := 60 * 60 * 1000
  let oneDay : Int := 24 * oneHour
  let recentEvents := svc.events.filter (withinSpan clock oneHour)
  let dailyEvents := svc.events.filter (withinSpan clock oneDay)
  let eventCounts := svc.events.foldl (countEvent clock) .nil
  { totalEvents := svc.events.length
    recentEvents := recentEvents.length
    dailyEvents := dailyEvents.length
    eventTypes := eventCounts
    lastEvent := svc.events.getLast? }

/-- The number of stored events whose name is the property key `name`. -/
def eventsNamed (name : JsString) (events : List TelemetryEvent) : Nat :=
  events.countP (fun e => decide (toJsString e.event = name))

/-- A clock at one second after `demoStamp`, on a platform that prints a
builtin function as `function () \x7b [native code] \x7d`. -/
def demoClock : StatsClock :=
  { now := 1704067201001
    getTime := fun t => if t = lit "2024-01-01T00:00:00.001Z" then some 1704067200001 else none
    memberText := fun _ => lit "function () \x7b [native code] \x7d" }

/-- The service after one event named `constructor` was tracked. -/
def constructorTracked : TelemetryService :=
  track TelemetryService.new demoStamp (.str (lit "constructor")) (.obj .nil)

/-- The service after one event named `__proto__` was tracked. -/
def protoTracked : TelemetryService :=
  track TelemetryService.new demoStamp (.str (lit "__proto__")) (.obj .nil)

/-- The service after two events named `page_view` were tracked. -/
def pageViewsTracked : TelemetryService :=
  track (track TelemetryService.new demoStamp (.str (lit "page_view")) (.obj .nil))
    demoStamp (.str (lit "page_view")) (.obj .nil)

/-! ## The templates (`templates/index.js`) -/

/-- A template. -/
structure Template where
  name : JsString
  description : JsString
  code : JsString
  deriving DecidableEq

/-- The object `templates`.  The Swift source text of each template, a long
literal, is the parameter `code`, by the key of the template. -/
def templates (code : JsString → JsString) : List (JsString × Template) :=
  [(lit "hello",
      { name := lit "Hello VStack"
        description := lit "Basic VStack with text and button"
        code := code (lit "hello") }),
    (lit "list",
      { name := lit "List View"
        description := lit "Simple list with navigation"
        code := code (lit "list") }),
    (lit "navigation",
      { name := lit "Navigation"
        description := lit "Multi-screen navigation flow"
        code := code (lit "navigation") }),
    (lit "cards",
      { name := lit "Cards"
        description := lit "Card-based layouts"
        code := code (lit "cards") }),
    (lit "forms",
      { name := lit "Forms"
        description := lit "Form inputs and validation"
        code := code (lit "forms") }),
    (lit "animations",
      { name := lit "Animations"
        description := lit "Basic animations and transitions"
        code := code (lit "animations") }),
    (lit "weather",
      { name := lit "Weather App"
        description := lit "Weather app layout example"
        code := code (lit "weather") })]

/-- The value `templates.hello`. -/
def helloTemplate (code : JsString → JsString) : Template :=
  { name := lit "Hello VStack"
    description := lit "Basic VStack with text and button"
    code := code (lit "hello") }

/-- What `getTemplate` returns: a template, or the member of `Object.prototype`
under a key (a builtin function, or `Object.prototype` itself for `__proto__`). -/
inductive TemplateResult where
  | template (t : Template)
  | inheritedMember (key : JsString)
  deriving DecidableEq

/-- `getTemplate`: `templates[name] || templates.hello`.  The key is the
string conversion of `name`; an own template and a member of
`Object.prototype` are both truthy. -/
def getTemplate (code : JsString → JsString) (name : JsVal) : TemplateResult :=
  let key := toJsString name
  match (templates code).lookup key with
  | some t => .template t
  | none => if key ∈ objectPrototypeKeys then .inheritedMember key else .template (helloTemplate code)

/-- The read `template.code` on a result of `getTemplate`, as `loadTemplate`
does it: a builtin function and `Object.prototype` have no `code`. -/
def TemplateResult.codeField : TemplateResult → JsVal
  | .template t => .str t.code
  | .inheritedMember _ => .undefined

/-- The read `template.description` on a result of `getTemplate`. -/
def TemplateResult.descriptionField : TemplateResult → JsVal
  | .template t => .str t.description
  | .inheritedMember _ => .undefined

/-- The array `templateEntries` of `PreviewPage.renderTemplateOptions`. -/
def templateEntries : List (JsString × JsString) :=
  [(lit "hello", lit "Hello VStack"), (lit "list", lit "List View"),
    (lit "navigation", lit "Navigation"), (lit "cards", lit "Cards"), (lit "forms", lit "Forms"),
    (lit "animations", lit "Animations"), (lit "weather", lit "Weather App")]

/-- `PreviewPage.renderTemplateOptions`: one `option` element for each entry. -/
def renderTemplateOptions : JsString :=
  (templateEntries.map (fun entry =>
    lit "<option value=" ++ [34] ++ entry.1 ++ [34] ++ lit ">" ++ entry.2 ++ lit "</option>")).flatten

/-! ## Properties of the client execution host -/

/-- The trace and bindings that `executeJavaScript` leaves. -/
theorem executeJavaScript_spec (h : Host) (w : World) (c : JsString) :
    (h.insertFault c = none →
      (executeJavaScript h w c).2 = none ∧
      (executeJavaScript h w c).1.entry = (h.runScript c w.entry).1 ∧
      (executeJavaScript h w c).1.dom = w.dom ∧
      (executeJavaScript h w c).1.trace = w.trace ++ .scriptInjected c ::
        (match (h.runScript c w.entry).2 with
          | some v => [.scriptError v]
          | none => [])) ∧
    (∀ e, h.insertFault c = some e →
      (executeJavaScript h w c).2 ≠ none ∧
      (executeJavaScript h w c).1.entry = w.entry ∧
      (executeJavaScript h w c).1.dom = w.dom ∧
      (executeJavaScript h w c).1.trace =
        w.trace ++ [.consoleError (lit "JavaScript execution error:") e]) := by
  constructor
  · intro hf
    unfold executeJavaScript
    rw [hf]
    cases h2 : (h.runScript c w.entry).2 <;> simp [h2, World.log]
  · intro e hf
    unfold executeJavaScript
    rw [hf]
    cases hm : getProp e (lit "message") <;> simp [hm, World.log]

/-- A `try` block that completes went through every step. -/
theorem loadBody_success {h : Host} {rt : WasmRuntime} {w : World} {a c : JsString}
    {k : ContainerId} {rt1 : WasmRuntime} {w1 : World}
    (hb : loadBody h rt w a c k = (rt1, w1, none)) :
    ∃ binary m w2 ep j,
      base64ToArrayBuffer a = .ok binary ∧ h.instantiate binary = .ok m ∧
      executeJavaScript h (w.log (.instantiateCalled binary)) c = (w2, none) ∧
      w2.entry = some ep ∧ ep.construct m = .ok j ∧
      (j.init w2.dom).thrown = none ∧ (j.render k (j.init w2.dom).dom).thrown = none ∧
      rt1 = { wasmModule := some m, jsRuntime := some j, isInitialized := true } ∧
      w1.trace = w2.trace ++ [.constructCalled m, .initCalled j.tag, .initReturned j.tag,
        .renderCalled j.tag k, .renderReturned j.tag k] ∧
      w1.dom = (j.render k (j.init w2.dom).dom).dom ∧ w1.entry = w2.entry := by
  unfold loadBody at hb
  cases hdec : base64ToArrayBuffer a with
  | error e => simp [hdec] at hb
  | ok binary =>
    cases hinst : h.instantiate binary with
    | error e => simp [hdec, hinst] at hb
    | ok m =>
      rcases hexec : executeJavaScript h (w.log (.instantiateCalled binary)) c with ⟨w2, _ | e⟩
      · cases hent : w2.entry with
        | none => simp [hdec, hinst, hexec, hent] at hb
        | some ep =>
          cases hcons : ep.construct m with
          | error e => simp [hdec, hinst, hexec, hent, hcons] at hb
          | ok j =>
            simp only [hdec, hinst, hexec, hent, hcons] at hb
            cases hinit : (j.init w2.dom).thrown with
            | some e => simp [hinit, World.log] at hb
            | none =>
              cases hrend : (j.render k (j.init w2.dom).dom).thrown with
              | some e => simp [hinit, hrend, World.log] at hb
              | none =>
                simp [hinit, hrend, World.log] at hb
                obtain ⟨hrt, hw⟩ := hb
                refine ⟨binary, m, w2, ep, j, rfl, hinst, hexec, hent, hcons, hinit, hrend,
                  ?_, ?_, ?_, ?_⟩
                · rw [← hrt]
                · rw [← hw]
                · rw [← hw]
                · rw [← hw]
      · simp [hdec, hinst, hexec] at hb


/-- The eight ways through the `try` block, with what each one leaves. -/
theorem loadBody_cases (h : Host) (rt : WasmRuntime) (w : World) (a c : JsString)
    (k : ContainerId) :
    (∃ e, base64ToArrayBuffer a = .error e ∧ loadBody h rt w a c k = (rt, w, some e)) ∨
    (∃ binary e, base64ToArrayBuffer a = .ok binary ∧ h.instantiate binary = .error e ∧
      loadBody h rt w a c k = (rt, w.log (.instantiateCalled binary), some e)) ∨
    (∃ binary m w2, base64ToArrayBuffer a = .ok binary ∧ h.instantiate binary = .ok m ∧
      ((∃ e, executeJavaScript h (w.log (.instantiateCalled binary)) c = (w2, some e) ∧
        loadBody h rt w a c k = ({ rt with wasmModule := some m }, w2, some e)) ∨
      (executeJavaScript h (w.log (.instantiateCalled binary)) c = (w2, none) ∧
        ((w2.entry = none ∧
          loadBody h rt w a c k =
            ({ rt with wasmModule := some m }, w2, some entryPointNotFound)) ∨
        (∃ ep, w2.entry = some ep ∧
          ((∃ e, ep.construct m = .error e ∧
            loadBody h rt w a c k =
              ({ rt with wasmModule := some m }, w2.log (.constructCalled m), some e)) ∨
          (∃ j, ep.construct m = .ok j ∧
            ((∃ e, (j.init w2.dom).thrown = some e ∧
              loadBody h rt w a c k =
                ({ rt with wasmModule := some m, jsRuntime := some j },
                  { w2 with
                    dom := (j.init w2.dom).dom
                    trace := w2.trace ++ [.constructCalled m, .initCalled j.tag] },
                  some e)) ∨
            ((j.init w2.dom).thrown = none ∧
              ((∃ e, (j.render k (j.init w2.dom).dom).thrown = some e ∧
                loadBody h rt w a c k =
                  ({ rt with wasmModule := some m, jsRuntime := some j },
                    { w2 with
                      dom := (j.render k (j.init w2.dom).dom).dom
                      trace := w2.trace ++ [.constructCalled m, .initCalled j.tag,
                        .initReturned j.tag, .renderCalled j.tag k] },
                    some e)) ∨
              ((j.render k (j.init w2.dom).dom).thrown = none ∧
                loadBody h rt w a c k =
                  ({ wasmModule := some m, jsRuntime := some j, isInitialized := true },
                    { w2 with
                      dom := (j.render k (j.init w2.dom).dom).dom
                      trace := w2.trace ++ [.constructCalled m, .initCalled j.tag,
                        .initReturned j.tag, .renderCalled j.tag k,
                        .renderReturned j.tag k] },
                    none)))))))))))) := by
  unfold loadBody
  cases hdec : base64ToArrayBuffer a with
  | error e => exact Or.inl ⟨e, rfl, rfl⟩
  | ok binary =>
    cases hinst : h.instantiate binary with
    | error e => exact Or.inr (Or.inl ⟨binary, e, rfl, hinst, by simp [hinst]⟩)
    | ok m =>
      refine Or.inr (Or.inr ?_)
      rcases hexec : executeJavaScript h (w.log (.instantiateCalled binary)) c with ⟨w2, _ | e⟩
      · refine ⟨binary, m, w2, rfl, hinst, Or.inr ⟨hexec, ?_⟩⟩
        cases hent : w2.entry with
        | none => exact Or.inl ⟨rfl, by simp [hinst, hexec, hent]⟩
        | some ep =>
          refine Or.inr ⟨ep, rfl, ?_⟩
          cases hcons : ep.construct m with
          | error e => exact Or.inl ⟨e, rfl, by simp [hinst, hexec, hent, hcons]⟩
          | ok j =>
            refine Or.inr ⟨j, rfl, ?_⟩
            simp only [hinst, hexec, hent, hcons]
            cases hinit : (j.init w2.dom).thrown with
            | some e => exact Or.inl ⟨e, rfl, by simp [hinit, World.log, hent]⟩
            | none =>
              refine Or.inr ⟨rfl, ?_⟩
              cases hrend : (j.render k (j.init w2.dom).dom).thrown with
              | some e => exact Or.inl ⟨e, rfl, by simp [hinit, hrend, World.log, hent]⟩
              | none => exact Or.inr ⟨rfl, by simp [hinit, hrend, World.log, hent]⟩
      · exact ⟨binary, m, w2, rfl, hinst, Or.inl ⟨e, hexec, by simp [hinst, hexec]⟩⟩


/-- Running the companion script adds only script and console events. -/
theorem executeJavaScript_count (h : Host) (w : World) (c : JsString) (e : Event)
    (he : e.fromScript = false) :
    (executeJavaScript h w c).1.trace.count e = w.trace.count e := by
  unfold executeJavaScript
  cases hf : h.insertFault c with
  | some v =>
    cases hm : getProp v (lit "message") <;>
      cases e <;> simp_all [World.log, List.count_cons, Event.fromScript]
  | none =>
    cases h2 : (h.runScript c w.entry).2 <;>
      cases e <;> simp_all [World.log, List.count_cons, Event.fromScript]

/-- The teardown hook is not called inside the `try` block. -/
theorem loadBody_count_hook (h : Host) (rt : WasmRuntime) (w : World) (a c : JsString)
    (k : ContainerId) (t : Nat) :
    (loadBody h rt w a c k).2.1.trace.count (.hookCalled t) = w.trace.count (.hookCalled t) := by
  have hx := fun b => executeJavaScript_count h (w.log (.instantiateCalled b)) c
    (.hookCalled t) rfl
  rcases loadBody_cases h rt w a c k with ⟨e, _, hr⟩ | ⟨b, e, _, _, hr⟩ |
    ⟨b, m, w2, _, _, ⟨e, hexec, hr⟩ | ⟨hexec, ⟨_, hr⟩ | ⟨ep, _, ⟨e, _, hr⟩ | ⟨j, _, ⟨e, _, hr⟩ |
      ⟨_, ⟨e, _, hr⟩ | ⟨_, hr⟩⟩⟩⟩⟩⟩ <;>
    rw [hr] <;>
    first
      | (have hx2 := hx b; rw [hexec] at hx2; simp_all [World.log, List.count_cons])
      | simp [World.log, List.count_cons]


/-- C1, as the code has it: a call to `loadAndExecute` never invokes a teardown
hook, whatever session the runtime holds (the number of `hookCalled` events of
every companion object is unchanged); when it succeeds, the module and
companion fields are overwritten with the module instantiated from this
artifact and the object constructed from it. -/
theorem loadAndExecute_never_disposes (h : Host) (rt : WasmRuntime) (w : World)
    (a c : JsString) (k : ContainerId) :
    (∀ t, (loadAndExecute h rt w a c k).2.2.trace.count (.hookCalled t) =
      w.trace.count (.hookCalled t)) ∧
    ((loadAndExecute h rt w a c k).1 = loadOk →
      ∃ binary m w2 ep j,
        base64ToArrayBuffer a = .ok binary ∧ h.instantiate binary = .ok m ∧
        executeJavaScript h (w.log (.instantiateCalled binary)) c = (w2, none) ∧
        w2.entry = some ep ∧ ep.construct m = .ok j ∧
        (loadAndExecute h rt w a c k).2.1.wasmModule = some m ∧
        (loadAndExecute h rt w a c k).2.1.jsRuntime = some j) := by
  constructor
  · intro t
    have hc := loadBody_count_hook h rt w a c k t
    unfold loadAndExecute
    rcases hb : loadBody h rt w a c k with ⟨rt1, w1, _ | e⟩
    · simpa [hb] using hc
    · rw [hb] at hc
      cases hm : getProp e (lit "message") <;>
        simpa [hm, World.log, List.count_cons] using hc
  · intro hs
    unfold loadAndExecute at hs ⊢
    rcases hb : loadBody h rt w a c k with ⟨rt1, w1, _ | e⟩
    · obtain ⟨binary, m, w2, ep, j, h1, h2, h3, h4, h5, -, -, h8, -⟩ := loadBody_success hb
      exact ⟨binary, m, w2, ep, j, h1, h2, h3, h4, h5, by simp [h8], by simp [h8]⟩
    · rw [hb] at hs
      cases hm : getProp e (lit "message") <;> simp [hm, loadOk] at hs

/-- C1 at a second load on a runtime that holds a session with a teardown
hook: the hook has been called as often after the load as before, and the
runtime holds the module of the second load. -/
theorem loadAndExecute_never_disposes_witness :
    hookedReload.2.2.trace.count (.hookCalled 3) = hookedLoad.2.2.trace.count (.hookCalled 3) ∧
    ∃ m, hookedReload.2.1.wasmModule = some m :=
  have hw := loadAndExecute_never_disposes demoHost hookedLoad.2.1 hookedLoad.2.2 (lit "TQ==")
    (lit "window.SwiftUIWasmRuntime = Hooked") 0
  ⟨hw.1 3,
    by
      obtain ⟨_, m, _, _, _, _, _, _, _, _, hm, _⟩ := hw.2 (by decide)
      exact ⟨m, hm⟩⟩

/-- C1 fails on the code: a first load succeeds with a companion that has a
teardown hook (object 3, module 3); a second load on the same runtime also
succeeds, and the hook of the first session has not been called at all. -/
theorem reload_does_not_dispose :
    hookedLoad.1 = loadOk ∧
    hookedLoad.2.1.wasmModule = some 3 ∧
    hookedLoad.2.1.jsRuntime.map (fun j => (j.tag, j.dispose.isSome)) = some (3, true) ∧
    hookedReload.1 = loadOk ∧
    hookedReload.2.1.wasmModule = some 1 ∧
    hookedReload.2.2.trace.count (.hookCalled 3) = 0 := by
  decide


/-- C2: `dispose` is callable from any state and idempotent.  For every
runtime and world in which the teardown hook (if any) does not throw,
`dispose` returns normally with the three fields reset, the hook has been
called exactly once when there is one and not at all otherwise, and a second
`dispose` changes neither the runtime nor the world (so the hook is not
called again). -/
theorem dispose_idempotent (rt : WasmRuntime) (w : World)
    (hook_ok : ∀ j hook, rt.jsRuntime = some j → j.dispose = some hook →
      (hook w.dom).thrown = none) :
    (dispose rt w).2.2 = none ∧
    (dispose rt w).1.wasmModule = none ∧
    (dispose rt w).1.jsRuntime = none ∧
    (dispose rt w).1.isInitialized = false ∧
    (dispose rt w).2.1.trace = w.trace ++
      (match rt.jsRuntime with
        | some j => if j.dispose.isSome then [Event.hookCalled j.tag] else []
        | none => []) ∧
    dispose (dispose rt w).1 (dispose rt w).2.1 =
      ((dispose rt w).1, (dispose rt w).2.1, none) := by
  unfold dispose
  cases hj : rt.jsRuntime with
  | none => simp [WasmRuntime.new]
  | some j =>
    cases hd : j.dispose with
    | none => simp [hd, WasmRuntime.new]
    | some hook =>
      have ht := hook_ok j hook hj hd
      simp [hd, ht, WasmRuntime.new]

/-- C2 at a loaded runtime whose companion has a hook: the hook is called once
by the first `dispose` and not by the second. -/
theorem dispose_idempotent_witness :
    (dispose loadedRuntime emptyWorld).2.2 = none ∧
    (dispose loadedRuntime emptyWorld).1.wasmModule = none ∧
    (dispose loadedRuntime emptyWorld).1.jsRuntime = none ∧
    (dispose loadedRuntime emptyWorld).1.isInitialized = false ∧
    (dispose loadedRuntime emptyWorld).2.1.trace = emptyWorld.trace ++
      (match loadedRuntime.jsRuntime with
        | some j => if j.dispose.isSome then [Event.hookCalled j.tag] else []
        | none => []) ∧
    dispose (dispose loadedRuntime emptyWorld).1 (dispose loadedRuntime emptyWorld).2.1 =
      ((dispose loadedRuntime emptyWorld).1, (dispose loadedRuntime emptyWorld).2.1, none) :=
  dispose_idempotent loadedRuntime emptyWorld (by
    intro j hook hj hd
    simp only [loadedRuntime, Option.some.injEq] at hj
    subst hj
    simp only [hookedObj, Option.some.injEq] at hd
    subst hd
    rfl)

/-- C3, as the code has it: `dispose` does not touch the rendering surfaces
itself.  The DOM after `dispose` is what the teardown hook of the session
leaves, and it is the DOM before the call when the session has no hook or the
runtime holds no session. -/
theorem dispose_surface (rt : WasmRuntime) (w : World) :
    (dispose rt w).2.1.dom =
      (match rt.jsRuntime with
        | some j =>
          (match j.dispose with
            | some hook => (hook w.dom).dom
            | none => w.dom)
        | none => w.dom) := by
  unfold dispose
  cases hj : rt.jsRuntime with
  | none => rfl
  | some j =>
    cases hd : j.dispose with
    | none => simp [hd]
    | some hook => cases ht : (hook w.dom).thrown <;> simp [hd, ht]

/-- C3 fails on the code: a session without a teardown hook renders the line
`view` into container 0; after `dispose` returns, the container still holds it. -/
theorem dispose_leaves_rendered_content :
    plainLoad.1 = loadOk ∧
    plainLoad.2.2.dom 0 = [lit "view"] ∧
    plainDisposed.2.2 = none ∧
    plainDisposed.1.jsRuntime.isNone = true ∧
    plainDisposed.2.1.dom 0 = [lit "view"] := by
  decide


/-- What the `catch` block adds to the `try` block: one console line. -/
theorem loadAndExecute_state (h : Host) (rt : WasmRuntime) (w : World) (a c : JsString)
    (k : ContainerId) :
    (loadAndExecute h rt w a c k).2.1 = (loadBody h rt w a c k).1 ∧
    (loadAndExecute h rt w a c k).2.2.entry = (loadBody h rt w a c k).2.1.entry ∧
    (loadAndExecute h rt w a c k).2.2.dom = (loadBody h rt w a c k).2.1.dom ∧
    (loadAndExecute h rt w a c k).2.2.trace = (loadBody h rt w a c k).2.1.trace ++
      (match (loadBody h rt w a c k).2.2 with
        | none => []
        | some e => [.consoleError (lit "WASM Runtime Error:") e]) := by
  unfold loadAndExecute
  rcases hb : loadBody h rt w a c k with ⟨rt1, w1, _ | e⟩
  · simp
  · cases hm : getProp e (lit "message") <;> simp [hm, World.log]

/-- How the call settles, from what the `try` block threw. -/
theorem loadAndExecute_outcome (h : Host) (rt : WasmRuntime) (w : World) (a c : JsString)
    (k : ContainerId) :
    (loadAndExecute h rt w a c k).1 =
      (match (loadBody h rt w a c k).2.2 with
        | none => loadOk
        | some e =>
          (match getProp e (lit "message") with
            | .error te => .rejected te
            | .ok m => .resolved { success := false, error := some m })) := by
  unfold loadAndExecute
  rcases hb : loadBody h rt w a c k with ⟨rt1, w1, _ | e⟩
  · simp [loadOk]
  · cases hm : getProp e (lit "message") <;> simp [hm]

/-- A script that was inserted: the binding, DOM and trace it leaves. -/
theorem executeJavaScript_none {h : Host} {w w2 : World} {c : JsString}
    (hx : executeJavaScript h w c = (w2, none)) :
    h.insertFault c = none ∧ w2.entry = (h.runScript c w.entry).1 ∧ w2.dom = w.dom ∧
    w2.trace = w.trace ++ .scriptInjected c ::
      (match (h.runScript c w.entry).2 with
        | some v => [.scriptError v]
        | none => []) := by
  have hs := executeJavaScript_spec h w c
  cases hf : h.insertFault c with
  | some e =>
    have := (hs.2 e hf).1
    rw [hx] at this
    exact absurd rfl this
  | none =>
    obtain ⟨-, h2, h3, h4⟩ := hs.1 hf
    rw [hx] at h2 h3 h4
    exact ⟨rfl, h2, h3, h4⟩


/-- C4, as the code has it: when the value thrown inside the `try` block
(by base64 decoding, instantiation, script insertion, construction, `init` or
`render`) is neither `null` nor `undefined`, the call resolves: to
`{ success: true }` when nothing was thrown, and otherwise to
`{ success: false, error: m }` with `m` the `message` property of the thrown
value.  An exception raised while the injected companion script runs is never
thrown to the caller. -/
theorem loadAndExecute_settles (h : Host) (rt : WasmRuntime) (w : World) (a c : JsString)
    (k : ContainerId)
    (hnull : (loadBody h rt w a c k).2.2 ≠ some .null)
    (hundef : (loadBody h rt w a c k).2.2 ≠ some .undefined) :
    (((loadBody h rt w a c k).2.2 = none ∧ (loadAndExecute h rt w a c k).1 = loadOk) ∨
      (∃ e m, (loadBody h rt w a c k).2.2 = some e ∧ getProp e (lit "message") = .ok m ∧
        (loadAndExecute h rt w a c k).1 = .resolved { success := false, error := some m })) ∧
    (h.insertFault c = none → ∀ w0, (executeJavaScript h w0 c).2 = none) := by
  refine ⟨?_, fun hf w0 => ((executeJavaScript_spec h w0 c).1 hf).1⟩
  have ho := loadAndExecute_outcome h rt w a c k
  cases ht : (loadBody h rt w a c k).2.2 with
  | none =>
    left
    rw [ht] at ho
    exact ⟨rfl, ho⟩
  | some e =>
    right
    rw [ht] at ho hnull hundef
    cases e with
    | null => exact absurd rfl hnull
    | undefined => exact absurd rfl hundef
    | bool b => exact ⟨_, .undefined, rfl, rfl, ho⟩
    | num n => exact ⟨_, .undefined, rfl, rfl, ho⟩
    | str s => exact ⟨_, .undefined, rfl, rfl, ho⟩
    | obj props => exact ⟨_, props.lookup (lit "message"), rfl, rfl, ho⟩

/-- C4 at a load that fails for want of an entry point: it resolves with the
message of the error thrown. -/
theorem loadAndExecute_settles_witness :
    ((loadBody demoHost WasmRuntime.new emptyWorld (lit "TWFu") [] 0).2.2 = none ∧
        (loadAndExecute demoHost WasmRuntime.new emptyWorld (lit "TWFu") [] 0).1 = loadOk) ∨
      (∃ e m, (loadBody demoHost WasmRuntime.new emptyWorld (lit "TWFu") [] 0).2.2 = some e ∧
        getProp e (lit "message") = .ok m ∧
        (loadAndExecute demoHost WasmRuntime.new emptyWorld (lit "TWFu") [] 0).1 =
          .resolved { success := false, error := some m }) :=
  (loadAndExecute_settles demoHost WasmRuntime.new emptyWorld (lit "TWFu") [] 0
    (by decide) (by decide)).1

/-- C4 fails on the code.  A companion whose `init` throws `null` makes the
call reject with a `TypeError`; and the `ReferenceError` raised by a companion
script is reported as a missing entry point, its own message appearing
nowhere in the result. -/
theorem load_rejects_or_hides_fault :
    nullThrowingLoad.1 = .rejected typeErrorNullish ∧
    brokenScriptLoad.1 = loadFailed (lit "SwiftUIWasmRuntime not found in compiled JavaScript") ∧
    Event.scriptError referenceError ∈ brokenScriptLoad.2.2.trace := by
  decide

/-- C5, as the code has it: a load that returns `success = false` resets
nothing.  `isInitialized` keeps the value it had before the call; the module
field holds the module instantiated by this call when instantiation
succeeded, and its previous value otherwise; the companion field holds the
object constructed by this call when construction succeeded (the artifact
decoded, the module was instantiated, the script ran without a fault and left
an entry point whose constructor returned), and its previous value otherwise. -/
theorem failed_load_keeps_state (h : Host) (rt : WasmRuntime) (w : World) (a c : JsString)
    (k : ContainerId) (err : Option JsVal)
    (hfail : (loadAndExecute h rt w a c k).1 = .resolved { success := false, error := err }) :
    (loadAndExecute h rt w a c k).2.1.isInitialized = rt.isInitialized ∧
    (loadAndExecute h rt w a c k).2.1.wasmModule =
      (match base64ToArrayBuffer a with
        | .ok binary =>
          (match h.instantiate binary with
            | .ok m => some m
            | .error _ => rt.wasmModule)
        | .error _ => rt.wasmModule) ∧
    (loadAndExecute h rt w a c k).2.1.jsRuntime =
      (match base64ToArrayBuffer a with
        | .ok binary =>
          (match h.instantiate binary with
            | .ok m =>
              (match executeJavaScript h (w.log (.instantiateCalled binary)) c with
                | (w2, none) =>
                  (match w2.entry with
                    | some ep =>
                      (match ep.construct m with
                        | .ok j => some j
                        | .error _ => rt.jsRuntime)
                    | none => rt.jsRuntime)
                | (_, some _) => rt.jsRuntime)
            | .error _ => rt.jsRuntime)
        | .error _ => rt.jsRuntime) := by
  have ho := loadAndExecute_outcome h rt w a c k
  rw [(loadAndExecute_state h rt w a c k).1]
  rw [hfail] at ho
  rcases loadBody_cases h rt w a c k with ⟨e, h1, hr⟩ | ⟨b, e, h1, h2, hr⟩ |
    ⟨b, m, w2, h1, h2, ⟨e, hexec, hr⟩ | ⟨hexec, ⟨h4, hr⟩ | ⟨ep, h4, ⟨e, h5, hr⟩ |
      ⟨j, h5, ⟨e, h6, hr⟩ | ⟨h6, ⟨e, h7, hr⟩ | ⟨h7, hr⟩⟩⟩⟩⟩⟩
  · simp [hr, h1]
  · simp [hr, h1, h2]
  · simp [hr, h1, h2, hexec]
  · simp [hr, h1, h2, hexec, h4]
  · simp [hr, h1, h2, hexec, h4, h5]
  · simp [hr, h1, h2, hexec, h4, h5]
  · simp [hr, h1, h2, hexec, h4, h5]
  · rw [hr] at ho
    simp [loadOk] at ho

/-- C5 at two failed loads on a new runtime.  One fails for want of an entry
point: the flag and the companion field are as they were, and the module of
this call is kept.  The other fails in `render`: the flag is as it was, and the
module and the companion object of this call are kept. -/
theorem failed_load_keeps_state_witness :
    (emptyScriptLoad.2.1.isInitialized = false ∧
      emptyScriptLoad.2.1.wasmModule = some 3 ∧
      emptyScriptLoad.2.1.jsRuntime = WasmRuntime.new.jsRuntime) ∧
    (renderFailingLoad.1 = loadFailed (lit "render failed") ∧
      renderFailingLoad.2.1.isInitialized = false ∧
      renderFailingLoad.2.1.wasmModule = some 3 ∧
      renderFailingLoad.2.1.jsRuntime = some (renderFailingObj 3)) :=
  have hw := failed_load_keeps_state demoHost WasmRuntime.new emptyWorld (lit "TWFu") [] 0
    (some (.str (lit "SwiftUIWasmRuntime not found in compiled JavaScript"))) (by decide)
  have hv := failed_load_keeps_state renderFailingHost WasmRuntime.new emptyWorld (lit "TWFu")
    (lit "window.SwiftUIWasmRuntime = RenderFailing") 0
    (some (.str (lit "render failed"))) (by decide)
  ⟨⟨hw.1, hw.2.1, hw.2.2⟩, ⟨by decide, hv.1, hv.2.1, hv.2.2⟩⟩

/-- C5 fails on the code: a load on a fresh runtime that fails because the
companion code defines no entry point leaves the instantiated module (handle
3) in the runtime. -/
theorem failed_load_keeps_module :
    emptyScriptLoad.1 = loadFailed (lit "SwiftUIWasmRuntime not found in compiled JavaScript") ∧
    emptyScriptLoad.2.1.wasmModule = some 3 := by
  decide


/-- A `render` call inside the `try` block happens only after `init` has
returned, on the object constructed from this call's module, with the given
container, and once. -/
theorem loadBody_render (h : Host) (rt : WasmRuntime) (w : World) (a c : JsString)
    (k : ContainerId) (t : Nat) (k2 : ContainerId)
    (hlt : w.trace.count (.renderCalled t k2) <
      (loadBody h rt w a c k).2.1.trace.count (.renderCalled t k2)) :
    ∃ binary m ep j,
      base64ToArrayBuffer a = .ok binary ∧ h.instantiate binary = .ok m ∧
      (h.runScript c w.entry).1 = some ep ∧ ep.construct m = .ok j ∧
      (j.init w.dom).thrown = none ∧ j.tag = t ∧ k2 = k ∧
      (loadBody h rt w a c k).2.1.trace.count (.renderCalled t k2) =
        w.trace.count (.renderCalled t k2) + 1 := by
  have hx := fun b => executeJavaScript_count h (w.log (.instantiateCalled b)) c
    (.renderCalled t k2) rfl
  rcases loadBody_cases h rt w a c k with ⟨e, h1, hr⟩ | ⟨b, e, h1, h2, hr⟩ |
    ⟨b, m, w2, h1, h2, ⟨e, hexec, hr⟩ | ⟨hexec, ⟨h4, hr⟩ | ⟨ep, h4, ⟨e, h5, hr⟩ |
      ⟨j, h5, ⟨e, h6, hr⟩ | ⟨h6, ⟨e, h7, hr⟩ | ⟨h7, hr⟩⟩⟩⟩⟩⟩
  · simp [hr] at hlt
  · simp [hr, World.log, List.count_cons] at hlt
  · have hx2 := hx b
    rw [hexec] at hx2
    simp [hr, World.log, List.count_cons] at hlt hx2
    omega
  · have hx2 := hx b
    rw [hexec] at hx2
    simp [hr, World.log, List.count_cons] at hlt hx2
    omega
  · have hx2 := hx b
    rw [hexec] at hx2
    simp [hr, World.log, List.count_cons] at hlt hx2
    omega
  · have hx2 := hx b
    rw [hexec] at hx2
    simp [hr, World.log, List.count_cons] at hlt hx2
    omega
  · have hx2 := hx b
    rw [hexec] at hx2
    obtain ⟨-, he, hd, -⟩ := executeJavaScript_none hexec
    simp only [World.log] at he hd
    rw [hd] at h6
    rw [he] at h4
    simp [hr, World.log, List.count_cons] at hlt hx2
    by_cases hq : j.tag = t ∧ k = k2
    · obtain ⟨hq1, hq2⟩ := hq
      subst hq1 hq2
      refine ⟨b, m, ep, j, h1, h2, h4, h5, h6, rfl, rfl, ?_⟩
      simp [hr, World.log, List.count_cons]
      omega
    · simp [hq] at hlt
      omega
  · have hx2 := hx b
    rw [hexec] at hx2
    obtain ⟨-, he, hd, -⟩ := executeJavaScript_none hexec
    simp only [World.log] at he hd
    rw [hd] at h6
    rw [he] at h4
    simp [hr, World.log, List.count_cons] at hlt hx2
    by_cases hq : j.tag = t ∧ k = k2
    · obtain ⟨hq1, hq2⟩ := hq
      subst hq1 hq2
      refine ⟨b, m, ep, j, h1, h2, h4, h5, h6, rfl, rfl, ?_⟩
      simp [hr, World.log, List.count_cons]
      omega
    · simp [hq] at hlt
      omega


/-- C6: initialize, then render.  Whenever `loadAndExecute` returns
`{ success: true }`, the events of the call are exactly: the instantiation of
the decoded artifact, the script injection (with the error the script raised,
if any), one construction of the entry point with the module just
instantiated, `init` called and returned, `render` called with the given
container and returned; and the runtime holds that module and object with
`isInitialized = true`.  And in every call, successful or not, a `render`
call is made only if `init` did not throw, only on the object constructed by
this call, only with the given container, and only once. -/
theorem initialize_then_render (h : Host) (rt : WasmRuntime) (w : World) (a c : JsString)
    (k : ContainerId) :
    ((loadAndExecute h rt w a c k).1 = loadOk →
      ∃ binary m ep j,
        base64ToArrayBuffer a = .ok binary ∧ h.instantiate binary = .ok m ∧
        (h.runScript c w.entry).1 = some ep ∧ ep.construct m = .ok j ∧
        (j.init w.dom).thrown = none ∧
        (j.render k (j.init w.dom).dom).thrown = none ∧
        (loadAndExecute h rt w a c k).2.2.trace =
          w.trace ++ .instantiateCalled binary :: .scriptInjected c ::
            ((match (h.runScript c w.entry).2 with
              | some v => [.scriptError v]
              | none => []) ++
            [.constructCalled m, .initCalled j.tag, .initReturned j.tag,
              .renderCalled j.tag k, .renderReturned j.tag k]) ∧
        (loadAndExecute h rt w a c k).2.1 =
          { wasmModule := some m, jsRuntime := some j, isInitialized := true }) ∧
    (∀ t k2,
      w.trace.count (.renderCalled t k2) <
        (loadAndExecute h rt w a c k).2.2.trace.count (.renderCalled t k2) →
      ∃ binary m ep j,
        base64ToArrayBuffer a = .ok binary ∧ h.instantiate binary = .ok m ∧
        (h.runScript c w.entry).1 = some ep ∧ ep.construct m = .ok j ∧
        (j.init w.dom).thrown = none ∧ j.tag = t ∧ k2 = k ∧
        (loadAndExecute h rt w a c k).2.2.trace.count (.renderCalled t k2) =
          w.trace.count (.renderCalled t k2) + 1) := by
  obtain ⟨hrt, -, -, htr⟩ := loadAndExecute_state h rt w a c k
  have ho := loadAndExecute_outcome h rt w a c k
  constructor
  · intro hs
    rcases hb : loadBody h rt w a c k with ⟨rt1, w1, _ | e⟩
    · obtain ⟨binary, m, w2, ep, j, h1, h2, h3, h4, h5, h6, h7, h8, h9, -, -⟩ :=
        loadBody_success hb
      obtain ⟨-, he, hd, ht⟩ := executeJavaScript_none h3
      simp only [World.log] at he hd ht
      rw [hd] at h6 h7
      rw [he] at h4
      refine ⟨binary, m, ep, j, h1, h2, h4, h5, h6, h7, ?_, ?_⟩
      · rw [htr, hb]
        simp [h9, ht]
      · rw [hrt, hb, h8]
    · rw [hs, hb] at ho
      cases hm : getProp e (lit "message") <;> simp [hm, loadOk] at ho
  · intro t k2 hlt
    have hcount : (loadAndExecute h rt w a c k).2.2.trace.count (.renderCalled t k2) =
        (loadBody h rt w a c k).2.1.trace.count (.renderCalled t k2) := by
      rw [htr]
      cases (loadBody h rt w a c k).2.2 <;> simp [List.count_cons]
    rw [hcount] at hlt ⊢
    exact loadBody_render h rt w a c k t k2 hlt

/-- C6 at a successful load: the runtime is initialized, and the one `render`
call of the trace is on container 0. -/
theorem initialize_then_render_witness :
    plainLoad.1 = loadOk ∧ plainLoad.2.1.isInitialized = true ∧
    (∀ t k2, emptyWorld.trace.count (.renderCalled t k2) <
      plainLoad.2.2.trace.count (.renderCalled t k2) → k2 = 0) :=
  have hw := initialize_then_render demoHost WasmRuntime.new emptyWorld (lit "TWFu")
    (lit "window.SwiftUIWasmRuntime = Plain") 0
  ⟨by decide,
    by
      obtain ⟨_, _, _, _, _, _, _, _, _, _, _, hrt⟩ := hw.1 (by decide)
      exact (congrArg WasmRuntime.isInitialized hrt).trans rfl,
    fun t k2 hlt => by
      obtain ⟨_, _, _, _, _, _, _, _, _, _, hk, _⟩ := hw.2 t k2 hlt
      exact hk⟩

/-- C8, as the code has it: the companion code runs in the global scope of
the host and the entry point is read from the global binding
`window.SwiftUIWasmRuntime`.  When the artifact decodes and instantiates and
the script element is inserted: the binding that the script leaves stays in
the world after the call; if that binding is absent the load fails with
`SwiftUIWasmRuntime not found in compiled JavaScript`; if it is present it is
the entry point that is constructed, whether this script or an earlier one
made it.  And `dispose` leaves the binding as it is. -/
theorem entry_point_is_global (h : Host) (rt : WasmRuntime) (w : World) (a c : JsString)
    (k : ContainerId) (binary : List Nat) (m : ModuleHandle)
    (hdec : base64ToArrayBuffer a = .ok binary) (hinst : h.instantiate binary = .ok m)
    (hins : h.insertFault c = none) :
    (loadAndExecute h rt w a c k).2.2.entry = (h.runScript c w.entry).1 ∧
    ((h.runScript c w.entry).1 = none →
      (loadAndExecute h rt w a c k).1 =
        loadFailed (lit "SwiftUIWasmRuntime not found in compiled JavaScript")) ∧
    (∀ ep j, (h.runScript c w.entry).1 = some ep → ep.construct m = .ok j →
      (loadAndExecute h rt w a c k).2.1.jsRuntime = some j) ∧
    (∀ rt0 w0, (dispose rt0 w0).2.1.entry = w0.entry) := by
  obtain ⟨hrt, hent, -, -⟩ := loadAndExecute_state h rt w a c k
  have ho := loadAndExecute_outcome h rt w a c k
  obtain ⟨hx1, hx2, -, -⟩ :=
    (executeJavaScript_spec h (w.log (.instantiateCalled binary)) c).1 hins
  have hwe : (w.log (.instantiateCalled binary)).entry = w.entry := rfl
  rw [hwe] at hx2
  have hdisp : ∀ rt0 w0, (dispose rt0 w0).2.1.entry = w0.entry := by
    intro rt0 w0
    unfold dispose
    cases hj : rt0.jsRuntime with
    | none => rfl
    | some j0 =>
      cases hd : j0.dispose with
      | none => simp [hd]
      | some hook => cases ht : (hook w0.dom).thrown <;> simp [hd, ht]
  rw [hrt, hent]
  rcases loadBody_cases h rt w a c k with ⟨e, h1, hr⟩ | ⟨b, e, h1, h2, hr⟩ |
    ⟨b, m2, w2, h1, h2, ⟨e, hexec, hr⟩ | ⟨hexec, ⟨h4, hr⟩ | ⟨ep, h4, ⟨e, h5, hr⟩ |
      ⟨j, h5, ⟨e, h6, hr⟩ | ⟨h6, ⟨e, h7, hr⟩ | ⟨h7, hr⟩⟩⟩⟩⟩⟩
  · rw [hdec] at h1; cases h1
  · rw [hdec] at h1; cases h1; rw [hinst] at h2; cases h2
  · rw [hdec] at h1; cases h1
    rw [hexec] at hx1
    cases hx1
  · rw [hdec] at h1; cases h1
    rw [hexec] at hx2
    simp only at hx2
    rw [h4] at hx2
    refine ⟨by rw [hr]; exact h4.trans hx2, fun _ => ?_, fun ep j hep => ?_, hdisp⟩
    · rw [ho, hr]
      rfl
    · rw [← hx2] at hep
      cases hep
  all_goals
    rw [hdec] at h1
    cases h1
    rw [hinst] at h2
    cases h2
    rw [hexec] at hx2
    simp only at hx2
    rw [h4] at hx2
    refine ⟨by rw [hr]; exact h4.trans hx2, fun hnone => ?_, fun ep2 j2 hep hj => ?_, hdisp⟩
    · rw [← hx2] at hnone
      cases hnone
    · rw [← hx2] at hep
      cases hep
      rw [h5] at hj
      cases hj
      try (rw [hr])


/-- C8 on an empty page: empty companion code leaves the binding absent, and
the load fails for want of an entry point. -/
theorem entry_point_is_global_witness :
    emptyScriptLoad.2.2.entry = (demoHost.runScript [] emptyWorld.entry).1 ∧
    emptyScriptLoad.1 = loadFailed (lit "SwiftUIWasmRuntime not found in compiled JavaScript") :=
  have hw := entry_point_is_global demoHost WasmRuntime.new emptyWorld (lit "TWFu") [] 0
    [77, 97, 110] 3 (by decide) (by decide) (by decide)
  ⟨hw.1, hw.2.1 rfl⟩

/-- C8 fails on the code: a first load defines the entry point and succeeds,
the runtime is disposed, and a second load whose companion code is empty then
succeeds with the entry point of the first load, where the same load on a
fresh page fails with `SwiftUIWasmRuntime not found in compiled JavaScript`. -/
theorem stale_entry_point_is_reused :
    plainLoad.1 = loadOk ∧
    plainDisposed.2.2 = none ∧
    plainDisposed.1.jsRuntime.isNone = true ∧
    staleLoad.1 = loadOk ∧
    staleLoad.2.2.trace.count (.constructCalled 1) = 1 ∧
    freshEmptyLoad.1 = loadFailed (lit "SwiftUIWasmRuntime not found in compiled JavaScript") := by
  decide


/-! ## Properties of the transport encoding -/

theorem base64Char_ne_pad (v : Nat) : base64Char v ≠ 61 := by
  unfold base64Char
  split_ifs <;> omega

theorem base64Char_not_whitespace (v : Nat) : isAsciiWhitespace (base64Char v) = false := by
  unfold isAsciiWhitespace base64Char
  split_ifs <;> simp <;> omega

theorem base64Value_char (v : Nat) (hv : v < 64) : base64Value (base64Char v) = some v := by
  unfold base64Char
  split_ifs with h1 h2 h3 h4
  · unfold base64Value
    rw [if_pos (by omega)]
    congr 1
    omega
  · unfold base64Value
    rw [if_neg (by omega), if_pos (by omega)]
    congr 1
    omega
  · unfold base64Value
    rw [if_neg (by omega), if_neg (by omega), if_pos (by omega)]
    congr 1
    omega
  · subst h4
    rfl
  · have : v = 63 := by omega
    subst this
    rfl

theorem base64Value_lt (c v : Nat) (h : base64Value c = some v) : v < 64 := by
  unfold base64Value at h
  split_ifs at h <;> simp at h <;> omega

/-- The encoding is the characters of the 6-bit groups, then the padding. -/
theorem base64Encode_eq (b : List Nat) :
    base64Encode b = (bytesToSextets b).map base64Char ++ base64Padding b := by
  induction b using base64Encode.induct with
  | case1 x y z rest ih => simp [base64Encode, bytesToSextets, base64Padding, ih]
  | case2 x y => simp [base64Encode, bytesToSextets, base64Padding]
  | case3 x => simp [base64Encode, bytesToSextets, base64Padding]
  | case4 => simp [base64Encode, bytesToSextets, base64Padding]

theorem base64Encode_length (b : List Nat) : (base64Encode b).length % 4 = 0 := by
  induction b using base64Encode.induct with
  | case1 x y z rest ih => simp [base64Encode]; omega
  | case2 x y => simp [base64Encode]
  | case3 x => simp [base64Encode]
  | case4 => simp [base64Encode]

theorem bytesToSextets_length (b : List Nat) : (bytesToSextets b).length % 4 ≠ 1 := by
  induction b using bytesToSextets.induct with
  | case1 x y z rest ih => simp [bytesToSextets]; omega
  | case2 x y => simp [bytesToSextets]
  | case3 x => simp [bytesToSextets]
  | case4 => simp [bytesToSextets]

theorem bytesToSextets_lt (b : List Nat) (hb : ∀ x ∈ b, x < 256) :
    ∀ v ∈ bytesToSextets b, v < 64 := by
  induction b using bytesToSextets.induct with
  | case1 x y z rest ih =>
    have hx := hb x (by simp)
    have hy := hb y (by simp)
    have hz := hb z (by simp)
    have ih2 := ih (fun v hv => hb v (by simp [hv]))
    intro v hv
    simp only [bytesToSextets, List.mem_cons] at hv
    rcases hv with h | h | h | h | h
    · omega
    · omega
    · omega
    · omega
    · exact ih2 v h
  | case2 x y =>
    have hx := hb x (by simp)
    have hy := hb y (by simp)
    intro v hv
    simp [bytesToSextets] at hv
    omega
  | case3 x =>
    have hx := hb x (by simp)
    intro v hv
    simp [bytesToSextets] at hv
    omega
  | case4 => simp [bytesToSextets]

/-- Regrouping the 6-bit groups of a byte sequence gives the bytes back. -/
theorem decodeSextets_bytesToSextets (b : List Nat) (hb : ∀ x ∈ b, x < 256) :
    decodeSextets (bytesToSextets b) = b := by
  induction b using bytesToSextets.induct with
  | case1 x y z rest ih =>
    have hx := hb x (by simp)
    have hy := hb y (by simp)
    have hz := hb z (by simp)
    have ih2 := ih (fun v hv => hb v (by simp [hv]))
    simp only [bytesToSextets, decodeSextets, ih2]
    congr 1
    · omega
    · congr 1
      · omega
      · congr 1
        omega
  | case2 x y =>
    have hx := hb x (by simp)
    have hy := hb y (by simp)
    simp only [bytesToSextets, decodeSextets]
    congr 1
    · omega
    · congr 1
      omega
  | case3 x =>
    have hx := hb x (by simp)
    simp only [bytesToSextets, decodeSextets]
    congr 1
    omega
  | case4 => rfl

theorem sextetsOf_map_char (l : List Nat) (hl : ∀ v ∈ l, v < 64) :
    sextetsOf (l.map base64Char) = some l := by
  induction l with
  | nil => rfl
  | cons v rest ih =>
    have hv := base64Value_char v (hl v (by simp))
    have ih2 := ih (fun u hu => hl u (by simp [hu]))
    simp [sextetsOf, hv, ih2]

theorem sextetsOf_lt (data : JsString) :
    ∀ vs, sextetsOf data = some vs → ∀ v ∈ vs, v < 64 := by
  induction data with
  | nil =>
    intro vs h
    simp [sextetsOf] at h
    subst h
    simp
  | cons c rest ih =>
    intro vs h
    unfold sextetsOf at h
    cases hc : base64Value c with
    | none => simp [hc] at h
    | some u =>
      cases hr : sextetsOf rest with
      | none => simp [hc, hr] at h
      | some us =>
        simp [hc, hr] at h
        subst h
        intro v hv
        rcases List.mem_cons.mp hv with h1 | h1
        · subst h1
          exact base64Value_lt c v hc
        · exact ih us hr v h1

theorem decodeSextets_lt (vs : List Nat) (hvs : ∀ v ∈ vs, v < 64) :
    ∀ x ∈ decodeSextets vs, x < 256 := by
  induction vs using decodeSextets.induct with
  | case1 a b c d rest ih =>
    have ha := hvs a (by simp)
    have hb := hvs b (by simp)
    have hc := hvs c (by simp)
    have hd := hvs d (by simp)
    have ih2 := ih (fun v hv => hvs v (by simp [hv]))
    intro x hx
    simp only [decodeSextets, List.mem_cons] at hx
    rcases hx with h | h | h | h
    · omega
    · omega
    · omega
    · exact ih2 x h
  | case2 a b c =>
    have ha := hvs a (by simp)
    have hb := hvs b (by simp)
    have hc := hvs c (by simp)
    intro x hx
    simp [decodeSextets] at hx
    omega
  | case3 a b =>
    have ha := hvs a (by simp)
    have hb := hvs b (by simp)
    intro x hx
    simp [decodeSextets] at hx
    omega
  | case4 a => simp [decodeSextets]
  | case5 => simp [decodeSextets]


theorem base64Padding_cases (b : List Nat) :
    base64Padding b = [] ∨ base64Padding b = [61] ∨ base64Padding b = [61, 61] := by
  induction b using base64Padding.induct with
  | case1 x y z rest ih => simpa [base64Padding] using ih
  | case2 x y => simp [base64Padding]
  | case3 x => simp [base64Padding]
  | case4 => simp [base64Padding]

/-- Stripping the padding of an encoding leaves the characters of the 6-bit groups. -/
theorem stripPadding_encode (b : List Nat) :
    stripPadding (base64Encode b) = (bytesToSextets b).map base64Char := by
  have hlen := base64Encode_length b
  have hnot : ((bytesToSextets b).map base64Char).getLast? ≠ some 61 := by
    intro h
    have hm := List.mem_of_getLast?_eq_some h
    obtain ⟨v, -, hv⟩ := List.mem_map.mp hm
    exact base64Char_ne_pad v hv
  unfold stripPadding
  rw [if_pos hlen, base64Encode_eq]
  rcases base64Padding_cases b with hp | hp | hp
  · rw [hp, List.append_nil, if_neg hnot]
  · rw [hp, if_pos (List.getLast?_concat _), List.dropLast_concat, if_neg hnot]
  · have h2 : (bytesToSextets b).map base64Char ++ [61, 61] =
        ((bytesToSextets b).map base64Char ++ [61]) ++ [61] := by simp
    rw [hp, h2, if_pos (List.getLast?_concat _), List.dropLast_concat,
      if_pos (List.getLast?_concat _), List.dropLast_concat]

theorem filter_whitespace_encode (b : List Nat) :
    (base64Encode b).filter (fun c => !isAsciiWhitespace c) = base64Encode b := by
  rw [List.filter_eq_self]
  intro c hc
  rw [base64Encode_eq] at hc
  rcases List.mem_append.mp hc with h | h
  · obtain ⟨v, -, hv⟩ := List.mem_map.mp h
    rw [← hv, base64Char_not_whitespace]
    rfl
  · rcases base64Padding_cases b with hp | hp | hp <;> rw [hp] at h <;> simp at h <;>
      subst h <;> rfl

/-- The forgiving decoder inverts the encoder on byte sequences. -/
theorem forgivingBase64Decode_encode (b : List Nat) (hb : ∀ x ∈ b, x < 256) :
    forgivingBase64Decode (base64Encode b) = some b := by
  unfold forgivingBase64Decode
  simp only [filter_whitespace_encode, stripPadding_encode]
  rw [if_neg (by simpa using bytesToSextets_length b),
    sextetsOf_map_char _ (bytesToSextets_lt b hb)]
  simp [decodeSextets_bytesToSextets b hb]

/-- The decoder yields bytes. -/
theorem forgivingBase64Decode_lt (data : JsString) (bytes : List Nat)
    (h : forgivingBase64Decode data = some bytes) : ∀ x ∈ bytes, x < 256 := by
  unfold forgivingBase64Decode at h
  simp only at h
  split_ifs at h
  cases hs : sextetsOf (stripPadding (data.filter (fun c => !isAsciiWhitespace c))) with
  | none => simp [hs] at h
  | some vs =>
    simp [hs] at h
    subst h
    exact decodeSextets_lt vs (sextetsOf_lt _ vs hs)

/-- The loop after `k` rounds: the first `k` elements are set. -/
theorem fillBytes_loop (s : JsString) (k : Nat) (hk : k ≤ s.length) :
    (List.range k).foldl (fun bytes i => bytes.set i (s.getD i 0 % 256))
      (List.replicate s.length 0) =
    (s.take k).map (fun c => c % 256) ++ List.replicate (s.length - k) 0 := by
  induction k with
  | zero => simp
  | succ k ih =>
    have hk2 : k < s.length := hk
    rw [List.range_succ, List.foldl_append, ih (Nat.le_of_lt hk2)]
    have hrep : List.replicate (s.length - k) 0 = 0 :: List.replicate (s.length - (k + 1)) 0 := by
      have : s.length - k = (s.length - (k + 1)) + 1 := by omega
      rw [this, List.replicate_succ]
    have hlen : ((s.take k).map (fun c => c % 256)).length = k := by
      simp [List.length_take, Nat.min_eq_left (Nat.le_of_lt hk2)]
    simp only [List.foldl_cons, List.foldl_nil]
    rw [hrep, List.set_append_right _ _ (by rw [hlen]), hlen, Nat.sub_self, List.set_cons_zero,
      List.take_succ, List.getElem?_eq_getElem hk2]
    simp only [List.getD_eq_getElem?_getD, List.getElem?_eq_getElem hk2, Option.getD_some,
      Option.toList_some, List.map_append, List.map_cons, List.map_nil, List.append_assoc,
      List.singleton_append]

/-- The loop copies every character code, modulo 256. -/
theorem fillBytes_eq (s : JsString) : fillBytes s = s.map (fun c => c % 256) := by
  unfold fillBytes
  rw [fillBytes_loop s s.length (Nat.le_refl _)]
  simp

/-- C7: `base64ToArrayBuffer` decodes the transport encoding exactly.  For
every byte sequence `b`, decoding the base64 encoding of `b` gives `b`; and
for every input on which `atob` returns a string `s`, the buffer has the
length of `s` and its byte `i` is the code of character `i` of `s`. -/
theorem base64ToArrayBuffer_decodes :
    (∀ b : List Nat, (∀ x ∈ b, x < 256) → base64ToArrayBuffer (base64Encode b) = .ok b) ∧
    (∀ input s, atob input = .ok s →
      ∃ bytes, base64ToArrayBuffer input = .ok bytes ∧ bytes.length = s.length ∧
        ∀ i, i < s.length → bytes[i]? = s[i]?) := by
  have hgen : ∀ input s, atob input = .ok s → base64ToArrayBuffer input = .ok s := by
    intro input s hs
    unfold base64ToArrayBuffer
    rw [hs]
    simp only [fillBytes_eq]
    unfold atob at hs
    cases hd : forgivingBase64Decode input with
    | none => simp [hd] at hs
    | some bytes =>
      simp [hd] at hs
      subst hs
      have hlt := forgivingBase64Decode_lt input bytes hd
      congr 1
      conv_rhs => rw [← List.map_id bytes]
      apply List.map_congr_left
      intro x hx
      exact Nat.mod_eq_of_lt (hlt x hx)
  constructor
  · intro b hb
    apply hgen
    unfold atob
    rw [forgivingBase64Decode_encode b hb]
  · intro input s hs
    exact ⟨s, hgen input s hs, rfl, fun _ _ => rfl⟩

/-- C7 at the eight bytes that begin a WebAssembly module. -/
theorem base64ToArrayBuffer_decodes_witness :
    base64ToArrayBuffer (base64Encode [0, 97, 115, 109, 1, 0, 0, 0]) =
      .ok [0, 97, 115, 109, 1, 0, 0, 0] :=
  base64ToArrayBuffer_decodes.1 [0, 97, 115, 109, 1, 0, 0, 0] (by decide)


/-! ## Properties of the compile endpoint -/

/-- The handler on a body whose `code` fails the first check. -/
theorem compileHandler_invalid (worker : CompileWorker) (props : JsProps)
    (hchk : (!truthy (props.lookup (lit "code")) || !isString (props.lookup (lit "code"))) = true) :
    compileHandler worker (.obj props) =
      { responses := [invalidCodeResponse], calls := [], escaped := none } := by
  unfold compileHandler compileTry
  simp only [getProp]
  rw [if_pos hchk]

/-- The handler on a body whose `code` is a non-empty string: the size check
decides between the 413 response and the worker. -/
theorem compileTry_valid (worker : CompileWorker) (props : JsProps) (code : JsString)
    (hcode : props.lookup (lit "code") = .str code) (hne : code ≠ []) :
    compileTry worker (.obj props) =
      (if code.length > 50000 then ([], .ok codeTooLargeResponse)
       else
        match worker.hashCode code with
        | .error e => ([.hashCode code], .error e)
        | .ok _ =>
          match getProp (if props.lookup (lit "options") = .undefined then JsVal.obj .nil
              else props.lookup (lit "options")) (lit "timeout") with
          | .error e => ([.hashCode code], .error e)
          | .ok t =>
            match worker.compile code
                (JsVal.obj ((JsProps.cons (lit "timeout")
                  (if truthy t then t else JsVal.num 10000) .nil).assign
                    (spreadProps (if props.lookup (lit "options") = .undefined then JsVal.obj .nil
                      else props.lookup (lit "options"))))) with
            | .error e =>
              ([.hashCode code, .compile code
                (JsVal.obj ((JsProps.cons (lit "timeout")
                  (if truthy t then t else JsVal.num 10000) .nil).assign
                    (spreadProps (if props.lookup (lit "options") = .undefined then JsVal.obj .nil
                      else props.lookup (lit "options")))))], .error e)
            | .ok result =>
              ([.hashCode code, .compile code
                (JsVal.obj ((JsProps.cons (lit "timeout")
                  (if truthy t then t else JsVal.num 10000) .nil).assign
                    (spreadProps (if props.lookup (lit "options") = .undefined then JsVal.obj .nil
                      else props.lookup (lit "options")))))],
                .ok { status := 200, body := result })) := by
  have hempty : code.isEmpty = false := by
    cases code with
    | nil => exact absurd rfl hne
    | cons c rest => rfl
  unfold compileTry
  simp only [getProp, hcode, truthy, isString, JsVal.units, hempty]
  rfl

/-- C9: malformed compile requests are rejected before the pipeline.  For
every request body whose `code` field is absent, is not a string, or is the
empty string, the handler answers 400 `Invalid code parameter`, once, and calls
neither `hashCode` nor `compile`. -/
theorem invalid_code_rejected (worker : CompileWorker) (props : JsProps)
    (hcode : ∀ s, props.lookup (lit "code") = .str s → s = []) :
    compileHandler worker (.obj props) =
      { responses :=
          [{ status := 400
             body := errorBody (.str (lit "Invalid code parameter"))
               (.str (lit "Code must be a non-empty string")) }]
        calls := []
        escaped := none } := by
  apply compileHandler_invalid
  cases hv : props.lookup (lit "code") with
  | str s =>
    have := hcode s hv
    subst this
    rfl
  | undefined => rfl
  | null => rfl
  | bool b => simp [isString]
  | num n => simp [isString]
  | obj o => rfl

/-- C9 at three bodies: no `code`, a number, the empty string. -/
theorem invalid_code_rejected_witness :
    compileHandler stubWorker (.obj .nil) =
      { responses := [invalidCodeResponse], calls := [], escaped := none } ∧
    compileHandler stubWorker (codeBody (.num 5)) =
      { responses := [invalidCodeResponse], calls := [], escaped := none } ∧
    compileHandler stubWorker (codeBody (.str [])) =
      { responses := [invalidCodeResponse], calls := [], escaped := none } :=
  ⟨invalid_code_rejected stubWorker .nil (by intro s hs; cases hs),
    invalid_code_rejected stubWorker (.cons (lit "code") (.num 5) .nil) (by
      intro s hs
      simp [JsProps.lookup] at hs),
    invalid_code_rejected stubWorker (.cons (lit "code") (.str []) .nil) (by
      intro s hs
      simp [JsProps.lookup] at hs
      exact hs)⟩

/-- The worker calls of the handler are those of its `try` block. -/
theorem compileHandler_calls (worker : CompileWorker) (body : JsVal) :
    (compileHandler worker body).calls = (compileTry worker body).1 := by
  unfold compileHandler
  rcases compileTry worker body with ⟨calls, r | e⟩
  · simp only
    cases getProp r (lit "name") with
    | error te => rfl
    | ok name =>
      simp only
      by_cases hn : name = .str (lit "TimeoutError")
      · rw [if_pos hn]
      · rw [if_neg hn]
        cases getProp r (lit "message") <;> rfl
  · rfl

/-- The 413 response is sent, and the worker left alone, exactly when the
code is longer than 50000 characters. -/
theorem codeTooLarge_iff (worker : CompileWorker) (props : JsProps) (code : JsString)
    (hcode : props.lookup (lit "code") = .str code) (hne : code ≠ []) :
    compileHandler worker (.obj props) =
        { responses := [codeTooLargeResponse], calls := [], escaped := none } ↔
      code.length > 50000 := by
  have ht := compileTry_valid worker props code hcode hne
  constructor
  · intro hres
    by_contra hle
    rw [if_neg hle] at ht
    have hcalls := compileHandler_calls worker (.obj props)
    rw [hres, ht] at hcalls
    cases hh : worker.hashCode code with
    | error e => simp [hh] at hcalls
    | ok hsh =>
      simp only [hh] at hcalls
      cases hg : getProp (if props.lookup (lit "options") = .undefined then JsVal.obj .nil
          else props.lookup (lit "options")) (lit "timeout") with
      | error e => simp [hg] at hcalls
      | ok t =>
        simp only [hg] at hcalls
        split at hcalls <;> simp at hcalls
  · intro hgt
    unfold compileHandler
    rw [ht, if_pos hgt]

/-- A body `{ code }` whose code is a non-empty string of at most 50000
characters goes through to the worker, with the default timeout. -/
theorem compileHandler_forwards (code : JsString) (hne : code ≠ [])
    (hlen : ¬ code.length > 50000) :
    compileHandler stubWorker (codeBody (.str code)) =
      { responses :=
          [{ status := 200, body := .obj (.cons (lit "success") (.bool true) .nil) }]
        calls :=
          [.hashCode code, .compile code (.obj (.cons (lit "timeout") (.num 10000) .nil))]
        escaped := none } := by
  have hlook : (JsProps.cons (lit "code") (JsVal.str code) .nil).lookup (lit "code") =
      .str code := by
    simp [JsProps.lookup]
  have hopt : (JsProps.cons (lit "code") (JsVal.str code) .nil).lookup (lit "options") =
      .undefined := by
    have : lit "code" ≠ lit "options" := by decide
    simp [JsProps.lookup, this]
  have ht := compileTry_valid stubWorker _ code hlook hne
  rw [if_neg hlen, hopt] at ht
  have htry : compileTry stubWorker (codeBody (.str code)) =
      ([.hashCode code, .compile code (.obj (.cons (lit "timeout") (.num 10000) .nil))],
        .ok { status := 200, body := .obj (.cons (lit "success") (.bool true) .nil) }) := by
    unfold codeBody
    rw [ht]
    simp only [stubWorker]
    rfl
  unfold compileHandler
  rw [htry]

/-- C10 fails on the code at the boundary: a source text of exactly 50000
characters, which is not fewer than 50000, passes the size check and is
forwarded to `hashCode` and to `compile`. -/
theorem limit_admits_50000_characters :
    code50000.length = 50000 ∧ ¬ code50000.length < 50000 ∧
    compileHandler stubWorker (codeBody (.str code50000)) =
      { responses :=
          [{ status := 200, body := .obj (.cons (lit "success") (.bool true) .nil) }]
        calls :=
          [.hashCode code50000,
            .compile code50000 (.obj (.cons (lit "timeout") (.num 10000) .nil))]
        escaped := none } := by
  have hlen : code50000.length = 50000 := List.length_replicate 50000 97
  have hne : code50000 ≠ [] := by
    intro h
    rw [h] at hlen
    simp at hlen
  exact ⟨hlen, by omega, compileHandler_forwards code50000 hne (by omega)⟩

/-- The handler on a valid request, in terms of `requestOptions` and `compileOptions`. -/
theorem compileTry_reaches_compile (worker : CompileWorker) (props : JsProps) (code : JsString)
    (hsh t : JsVal)
    (hcode : props.lookup (lit "code") = .str code) (hne : code ≠ [])
    (hlen : ¬ code.length > 50000)
    (hhash : worker.hashCode code = .ok hsh)
    (ht : getProp (requestOptions props) (lit "timeout") = .ok t) :
    compileTry worker (.obj props) =
      (match worker.compile code (compileOptions (requestOptions props) t) with
        | .error e =>
          ([.hashCode code, .compile code (compileOptions (requestOptions props) t)], .error e)
        | .ok result =>
          ([.hashCode code, .compile code (compileOptions (requestOptions props) t)],
            .ok { status := 200, body := result })) := by
  have hv := compileTry_valid worker props code hcode hne
  rw [if_neg hlen, hhash] at hv
  unfold requestOptions at ht
  unfold requestOptions compileOptions
  rw [hv]
  simp only [ht]

/-- The `catch` block of the compile handler on a value that is neither
`null` nor `undefined`. -/
theorem compileHandler_catch (worker : CompileWorker) (body : JsVal) (calls : List WorkerCall)
    (e : JsVal) (htry : compileTry worker body = (calls, .error e))
    (hnull : e ≠ .null) (hundef : e ≠ .undefined) :
    ∃ name message,
      getProp e (lit "name") = .ok name ∧ getProp e (lit "message") = .ok message ∧
      compileHandler worker body =
        (if name = .str (lit "TimeoutError") then
          { responses := [timeoutResponse], calls := calls, escaped := none }
        else
          { responses := [compilationFailedResponse message], calls := calls, escaped := none }) := by
  unfold compileHandler
  rw [htry]
  cases e with
  | null => exact absurd rfl hnull
  | undefined => exact absurd rfl hundef
  | bool b => exact ⟨.undefined, .undefined, rfl, rfl, by simp [getProp, compilationFailedResponse]⟩
  | num n => exact ⟨.undefined, .undefined, rfl, rfl, by simp [getProp, compilationFailedResponse]⟩
  | str s => exact ⟨.undefined, .undefined, rfl, rfl, by simp [getProp, compilationFailedResponse]⟩
  | obj o =>
    refine ⟨o.lookup (lit "name"), o.lookup (lit "message"), rfl, rfl, ?_⟩
    simp only [getProp, compilationFailedResponse]

/-- C11: timeouts are distinguished from other compile failures.  For every
valid request and every error `e` (a value other than `null` and `undefined`)
thrown by `compileWorker.compile`, the handler sends one response: 408
`Compilation timeout` if and only if `e.name` is `TimeoutError`; otherwise 500
`Compilation failed` with `e.message`, or with `Unknown compilation error`
when `e.message` is absent or empty (or falsy in any other way). -/
theorem timeout_distinguished (worker : CompileWorker) (props : JsProps) (code : JsString)
    (hsh t e : JsVal)
    (hcode : props.lookup (lit "code") = .str code) (hne : code ≠ [])
    (hlen : ¬ code.length > 50000)
    (hhash : worker.hashCode code = .ok hsh)
    (ht : getProp (requestOptions props) (lit "timeout") = .ok t)
    (hthrow : worker.compile code (compileOptions (requestOptions props) t) = .error e)
    (hnull : e ≠ .null) (hundef : e ≠ .undefined) :
    ∃ name message,
      getProp e (lit "name") = .ok name ∧ getProp e (lit "message") = .ok message ∧
      (compileHandler worker (.obj props)).escaped = none ∧
      ((compileHandler worker (.obj props)).responses =
          [{ status := 408
             body := errorBody (.str (lit "Compilation timeout"))
               (.str (lit "Compilation took too long, please simplify your code")) }] ↔
        name = .str (lit "TimeoutError")) ∧
      (name ≠ .str (lit "TimeoutError") →
        (compileHandler worker (.obj props)).responses =
          [{ status := 500
             body := errorBody (.str (lit "Compilation failed"))
               (if truthy message then message
                else .str (lit "Unknown compilation error")) }]) ∧
      truthy .undefined = false ∧ truthy (.str []) = false ∧
      (∀ s, s ≠ [] → truthy (.str s) = true) := by
  have htry := compileTry_reaches_compile worker props code hsh t hcode hne hlen hhash ht
  rw [hthrow] at htry
  obtain ⟨name, message, hn, hm, hres⟩ := compileHandler_catch worker _ _ e htry hnull hundef
  refine ⟨name, message, hn, hm, ?_, ?_, ?_, rfl, rfl, ?_⟩
  · rw [hres]
    split_ifs <;> rfl
  · rw [hres]
    constructor
    · intro h
      by_contra hne2
      rw [if_neg hne2] at h
      simp [compilationFailedResponse] at h
    · intro h
      rw [if_pos h]
      rfl
  · intro hne2
    rw [hres, if_neg hne2]
    rfl
  · intro s hs
    cases s with
    | nil => exact absurd rfl hs
    | cons c rest => rfl

/-- C11 at a worker that throws a `TimeoutError`, and at one that throws an
error without a message. -/
theorem timeout_distinguished_witness :
    (compileHandler (throwingWorker (mkError (lit "TimeoutError") (lit "deadline")))
        (codeBody (.str (lit "x")))).responses = [timeoutResponse] ∧
    (compileHandler (throwingWorker (.obj .nil)) (codeBody (.str (lit "x")))).responses =
      [compilationFailedResponse .undefined] :=
  ⟨by
      obtain ⟨name, message, hn, -, -, hiff, -⟩ :=
        timeout_distinguished (throwingWorker (mkError (lit "TimeoutError") (lit "deadline")))
          (.cons (lit "code") (.str (lit "x")) .nil) (lit "x") (.str (lit "hash")) .undefined
          (mkError (lit "TimeoutError") (lit "deadline"))
          (by decide) (by decide) (by decide) rfl (by decide) rfl (by decide) (by decide)
      have hname : name = .str (lit "TimeoutError") := by
        have h2 : getProp (mkError (lit "TimeoutError") (lit "deadline")) (lit "name") =
            .ok (.str (lit "TimeoutError")) := by decide
        rw [h2] at hn
        cases hn
        rfl
      exact hiff.mpr hname,
    by decide⟩

/-- C12 fails on the code: when `compileWorker.compile` throws `null` (or
rejects with no reason, that is `undefined`), the `catch` block throws a
`TypeError` on reading `error.name`; no response is sent and the exception
leaves the handler. -/
theorem null_fault_escapes_handler :
    compileHandler (throwingWorker .null) (codeBody (.str (lit "x"))) =
      { responses := []
        calls := [.hashCode (lit "x"), .compile (lit "x") (timeoutOption (.num 10000))]
        escaped := some typeErrorNullish } ∧
    compileHandler (throwingWorker .undefined) (codeBody (.str (lit "x"))) =
      { responses := []
        calls := [.hashCode (lit "x"), .compile (lit "x") (timeoutOption (.num 10000))]
        escaped := some typeErrorNullish } := by
  decide

/-- C13 fails on the code where the request carries a falsy `timeout`: the
spread `...options` comes after `timeout: options.timeout || 10000` and
overwrites the default, so `compile` receives `timeout: 0` (or `null`).  With
a truthy timeout, or none, the options are as the claim says, and other
options pass through. -/
theorem falsy_timeout_overrides_default :
    (compileHandler stubWorker (codeOptionsBody (.str (lit "x")) (timeoutOption (.num 0)))).calls =
      [.hashCode (lit "x"), .compile (lit "x") (timeoutOption (.num 0))] ∧
    (compileHandler stubWorker (codeOptionsBody (.str (lit "x")) (timeoutOption .null))).calls =
      [.hashCode (lit "x"), .compile (lit "x") (timeoutOption .null)] ∧
    (compileHandler stubWorker (codeOptionsBody (.str (lit "x")) (timeoutOption (.num 5000)))).calls =
      [.hashCode (lit "x"), .compile (lit "x") (timeoutOption (.num 5000))] ∧
    (compileHandler stubWorker (codeBody (.str (lit "x")))).calls =
      [.hashCode (lit "x"), .compile (lit "x") (timeoutOption (.num 10000))] ∧
    (compileHandler stubWorker (codeOptionsBody (.str (lit "x"))
        (.obj (.cons (lit "target") (.str (lit "wasm")) .nil)))).calls =
      [.hashCode (lit "x"), .compile (lit "x")
        (.obj (.cons (lit "timeout") (.num 10000) (.cons (lit "target") (.str (lit "wasm")) .nil)))] := by
  decide

/-! ## Properties of the telemetry service -/

theorem JsProps.lookup_delete (ps : JsProps) (key k : JsString) :
    (ps.delete key).lookup k = if k = key then .undefined else ps.lookup k := by
  match ps with
  | .nil => simp [JsProps.delete, JsProps.lookup]
  | .cons k0 v rest =>
    have ih := JsProps.lookup_delete rest key k
    by_cases h0 : k0 = key <;> by_cases h1 : k0 = k
    · subst h0; subst h1
      simp [JsProps.delete, ih]
    · subst h0
      have h2 : ¬ k = k0 := fun h => h1 h.symm
      simp [JsProps.delete, JsProps.lookup, ih, h1, h2]
    · subst h1
      simp [JsProps.delete, JsProps.lookup, h0]
    · by_cases h2 : k = key
      · subst h2
        simp [JsProps.delete, JsProps.lookup, ih, h0]
      · simp [JsProps.delete, JsProps.lookup, ih, h0, h1, h2]

theorem JsProps.has_delete (ps : JsProps) (key k : JsString) :
    (ps.delete key).has k = if k = key then false else ps.has k := by
  match ps with
  | .nil => simp [JsProps.delete, JsProps.has]
  | .cons k0 v rest =>
    have ih := JsProps.has_delete rest key k
    by_cases h0 : k0 = key <;> by_cases h1 : k0 = k
    · subst h0; subst h1
      simp [JsProps.delete, ih]
    · subst h0
      have h2 : ¬ k = k0 := fun h => h1 h.symm
      simp [JsProps.delete, JsProps.has, ih, h1, h2]
    · subst h1
      simp [JsProps.delete, JsProps.has, h0]
    · by_cases h2 : k = key
      · subst h2
        simp [JsProps.delete, JsProps.has, ih, h0]
      · simp [JsProps.delete, JsProps.has, ih, h0, h1, h2]

theorem JsProps.lookup_set (ps : JsProps) (key k : JsString) (v : JsVal) :
    (ps.set key v).lookup k = if k = key then v else ps.lookup k := by
  match ps with
  | .nil =>
    by_cases hk : k = key
    · simp [JsProps.set, JsProps.lookup, hk]
    · have : key ≠ k := fun h => hk h.symm
      simp [JsProps.set, JsProps.lookup, hk, this]
  | .cons k0 w rest =>
    have ih := JsProps.lookup_set rest key k v
    by_cases h0 : k0 = key <;> by_cases h1 : k0 = k
    · subst h0; subst h1
      simp [JsProps.set, JsProps.lookup]
    · subst h0
      have h2 : ¬ k = k0 := fun h => h1 h.symm
      simp [JsProps.set, JsProps.lookup, h1, h2]
    · subst h1
      simp [JsProps.set, JsProps.lookup, h0]
    · by_cases h2 : k = key
      · subst h2
        simp [JsProps.set, JsProps.lookup, ih, h0]
      · simp [JsProps.set, JsProps.lookup, ih, h0, h1, h2]

theorem JsProps.has_set (ps : JsProps) (key k : JsString) (v : JsVal) :
    (ps.set key v).has k = if k = key then true else ps.has k := by
  match ps with
  | .nil =>
    by_cases hk : k = key
    · simp [JsProps.set, JsProps.has, hk]
    · have : key ≠ k := fun h => hk h.symm
      simp [JsProps.set, JsProps.has, hk, this]
  | .cons k0 w rest =>
    have ih := JsProps.has_set rest key k v
    by_cases h0 : k0 = key <;> by_cases h1 : k0 = k
    · subst h0; subst h1
      simp [JsProps.set, JsProps.has]
    · subst h0
      have h2 : ¬ k = k0 := fun h => h1 h.symm
      simp [JsProps.set, JsProps.has, h1, h2]
    · subst h1
      simp [JsProps.set, JsProps.has, h0]
    · by_cases h2 : k = key
      · subst h2
        simp [JsProps.set, JsProps.has, ih, h0]
      · simp [JsProps.set, JsProps.has, ih, h0, h1, h2]

theorem JsProps.has_of_lookup_str (ps : JsProps) (k s : JsString)
    (h : ps.lookup k = .str s) : ps.has k = true := by
  match ps with
  | .nil => simp [JsProps.lookup] at h
  | .cons k0 v rest =>
    have ih := JsProps.has_of_lookup_str rest k s
    by_cases h0 : k0 = k
    · simp [JsProps.has, h0]
    · simp only [JsProps.lookup, if_neg h0] at h
      simp [JsProps.has, h0, ih h]

theorem JsProps.lookup_of_not_mem_keys (ps : JsProps) (k : JsString) (h : k ∉ ps.keys) :
    ps.lookup k = .undefined := by
  match ps with
  | .nil => rfl
  | .cons k0 v rest =>
    have ih := JsProps.lookup_of_not_mem_keys rest k
    simp only [JsProps.keys, List.mem_cons, not_or] at h
    have h0 : k0 ≠ k := fun e => h.1 e.symm
    simp [JsProps.lookup, h0, ih h.2]

/-- Deleting a list of keys: the deleted keys are gone, the others untouched. -/
theorem foldl_delete_spec (keys : List JsString) (ps : JsProps) (k : JsString) :
    (keys.foldl JsProps.delete ps).lookup k = (if k ∈ keys then .undefined else ps.lookup k) ∧
    (keys.foldl JsProps.delete ps).has k = (if k ∈ keys then false else ps.has k) := by
  induction keys generalizing ps with
  | nil => simp
  | cons key rest ih =>
    simp only [List.foldl_cons, List.mem_cons]
    obtain ⟨h1, h2⟩ := ih (ps.delete key)
    rw [h1, h2, JsProps.lookup_delete, JsProps.has_delete]
    by_cases hk : k = key
    · simp [hk]
    · by_cases hr : k ∈ rest
      · simp [hk, hr]
      · simp [hk, hr]

theorem truncateValue_idem (v : JsVal) : truncateValue (truncateValue v) = truncateValue v := by
  cases v with
  | str s =>
    unfold truncateValue
    by_cases h : s.length > 100
    · simp only [if_pos h]
      have h3 : (lit "...").length = 3 := by decide
      have hl : (truncateString s).length > 100 := by
        simp only [truncateString, List.length_append, List.length_take, h3]
        omega
      have ht : truncateString (truncateString s) = truncateString s := by
        unfold truncateString
        rw [List.take_append_of_le_length (by simp only [List.length_take]; omega)]
        rw [List.take_take]
        simp only [Nat.min_self]
      rw [if_pos hl, ht]
    · simp only [if_neg h]
  | undefined => rfl
  | null => rfl
  | bool b => rfl
  | num n => rfl
  | obj o => rfl

theorem truncateKey_spec (ps : JsProps) (key k : JsString) :
    (truncateKey ps key).lookup k =
        (if k = key then truncateValue (ps.lookup k) else ps.lookup k) ∧
    (truncateKey ps key).has k = ps.has k := by
  unfold truncateKey
  cases hv : ps.lookup key with
  | str s =>
    simp only
    by_cases hl : s.length > 100
    · rw [if_pos hl, JsProps.lookup_set, JsProps.has_set]
      by_cases hk : k = key
      · subst hk
        simp [hv, truncateValue, hl, JsProps.has_of_lookup_str ps k s hv]
      · simp [hk]
    · rw [if_neg hl]
      by_cases hk : k = key
      · subst hk
        simp [hv, truncateValue, hl]
      · simp [hk]
  | undefined =>
    by_cases hk : k = key
    · subst hk; simp [hv, truncateValue]
    · simp [hk]
  | null =>
    by_cases hk : k = key
    · subst hk; simp [hv, truncateValue]
    · simp [hk]
  | bool b =>
    by_cases hk : k = key
    · subst hk; simp [hv, truncateValue]
    · simp [hk]
  | num n =>
    by_cases hk : k = key
    · subst hk; simp [hv, truncateValue]
    · simp [hk]
  | obj o =>
    by_cases hk : k = key
    · subst hk; simp [hv, truncateValue]
    · simp [hk]

/-- The truncation loop over a list of keys. -/
theorem foldl_truncateKey_spec (keys : List JsString) (ps : JsProps) (k : JsString) :
    (keys.foldl truncateKey ps).lookup k =
        (if k ∈ keys then truncateValue (ps.lookup k) else ps.lookup k) ∧
    (keys.foldl truncateKey ps).has k = ps.has k := by
  induction keys generalizing ps with
  | nil => simp
  | cons key rest ih =>
    simp only [List.foldl_cons, List.mem_cons]
    obtain ⟨h1, h2⟩ := ih (truncateKey ps key)
    obtain ⟨h3, h4⟩ := truncateKey_spec ps key k
    rw [h1, h2, h3, h4]
    refine ⟨?_, rfl⟩
    by_cases hk : k = key
    · subst hk
      by_cases hr : k ∈ rest
      · simp [hr, truncateValue_idem]
      · simp [hr]
    · by_cases hr : k ∈ rest
      · simp [hk, hr]
      · simp [hk, hr]

/-- What `sanitizeProperties` leaves under every key. -/
theorem sanitizeProperties_spec (p : JsVal) (k : JsString) :
    (sanitizeProperties p).lookup k =
        (if k ∈ sensitiveKeys then .undefined else truncateValue ((spreadProps p).lookup k)) ∧
    (sanitizeProperties p).has k =
        (if k ∈ sensitiveKeys then false else (spreadProps p).has k) := by
  unfold sanitizeProperties
  simp only
  obtain ⟨h1, h2⟩ := foldl_truncateKey_spec
    (sensitiveKeys.foldl JsProps.delete (spreadProps p)).keys
    (sensitiveKeys.foldl JsProps.delete (spreadProps p)) k
  obtain ⟨h3, h4⟩ := foldl_delete_spec sensitiveKeys (spreadProps p) k
  rw [h1, h2, h4]
  refine ⟨?_, rfl⟩
  by_cases hm : k ∈ (sensitiveKeys.foldl JsProps.delete (spreadProps p)).keys
  · rw [if_pos hm, h3]
    by_cases hs : k ∈ sensitiveKeys
    · simp [hs, truncateValue]
    · simp [hs]
  · rw [if_neg hm]
    have hu := JsProps.lookup_of_not_mem_keys _ k hm
    rw [hu]
    rw [h3] at hu
    by_cases hs : k ∈ sensitiveKeys
    · simp [hs]
    · rw [if_neg hs] at hu
      simp [hs, hu, truncateValue]

/-- What `track` leaves, for a positive `maxEvents`. -/
theorem track_events (svc : TelemetryService) (stamp : Stamp) (event p : JsVal)
    (hmax : 0 < svc.maxEvents) :
    (track svc stamp event p).events =
      (svc.events ++ [makeEvent stamp event p]).drop (svc.events.length + 1 - svc.maxEvents) ∧
    (track svc stamp event p).maxEvents = svc.maxEvents := by
  unfold track
  simp only [List.length_append, List.length_singleton]
  by_cases h : svc.events.length + 1 > svc.maxEvents
  · rw [if_pos h]
    have hne : svc.maxEvents ≠ 0 := by omega
    simp [sliceLast, hne]
  · rw [if_neg h]
    have h0 : svc.events.length + 1 - svc.maxEvents = 0 := by omega
    simp [h0]

/-- The event just tracked is the last one stored. -/
theorem track_getLast (svc : TelemetryService) (stamp : Stamp) (event p : JsVal) :
    (track svc stamp event p).events.getLast? = some (makeEvent stamp event p) := by
  unfold track
  simp only [List.length_append, List.length_singleton]
  by_cases h : svc.events.length + 1 > svc.maxEvents
  · rw [if_pos h]
    unfold sliceLast
    by_cases h0 : svc.maxEvents = 0
    · simp [h0]
    · simp only [if_neg h0, List.getLast?_drop, List.length_append, List.length_singleton]
      rw [if_neg (by omega)]
      simp
  · rw [if_neg h]
    simp

/-- After a sequence of calls on a service whose list was empty, the list
holds the last `maxEvents` events tracked. -/
theorem trackAll_events (m : Nat) (hm : 0 < m) (calls : List (Stamp × JsVal × JsVal)) :
    (trackAll { events := [], maxEvents := m } calls).events =
      (calls.map (fun c => makeEvent c.1 c.2.1 c.2.2)).drop (calls.length - m) ∧
    (trackAll { events := [], maxEvents := m } calls).maxEvents = m := by
  induction calls using List.reverseRecOn with
  | nil => simp [trackAll]
  | append_singleton init c ih =>
    obtain ⟨ih1, ih2⟩ := ih
    have hstep : trackAll { events := [], maxEvents := m } (init ++ [c]) =
        track (trackAll { events := [], maxEvents := m } init) c.1 c.2.1 c.2.2 := by
      simp [trackAll, List.foldl_append]
    obtain ⟨h1, h2⟩ := track_events (trackAll { events := [], maxEvents := m } init)
      c.1 c.2.1 c.2.2 (by rw [ih2]; exact hm)
    rw [hstep, h1, h2, ih1, ih2]
    refine ⟨?_, rfl⟩
    simp only [List.length_drop, List.length_map, List.map_append, List.map_cons, List.map_nil,
      List.length_append, List.length_singleton]
    by_cases hn : init.length < m
    · have e1 : init.length - m = 0 := by omega
      have e2 : init.length - (init.length - m) + 1 - m = 0 := by omega
      have e3 : init.length + 1 - m = 0 := by omega
      simp [e1, e2, e3]
    · have e2 : init.length - (init.length - m) + 1 - m = 1 := by omega
      have e3 : init.length + 1 - m = (init.length - m) + 1 := by omega
      have hd : List.drop (init.length - m)
          (List.map (fun c => makeEvent c.1 c.2.1 c.2.2) init ++ [makeEvent c.1 c.2.1 c.2.2]) =
          List.drop (init.length - m) (List.map (fun c => makeEvent c.1 c.2.1 c.2.2) init) ++
            [makeEvent c.1 c.2.1 c.2.2] :=
        List.drop_append_of_le_length (by simp)
      rw [e2, e3, ← List.drop_drop, hd]

/-- C14: sensitive keys are removed from stored telemetry.  For every
properties value `p`, the result of `sanitizeProperties` has none of the keys
code, source, content, password, token, key, secret, email, phone, address,
ssn, credit, card, and has every other key exactly when `p` has it; and the
event that `track` stores has none of those keys in its properties. -/
theorem sensitive_keys_removed (p : JsVal) :
    sensitiveKeys =
      [lit "code", lit "source", lit "content", lit "password", lit "token", lit "key",
        lit "secret", lit "email", lit "phone", lit "address", lit "ssn", lit "credit",
        lit "card"] ∧
    (∀ k ∈ sensitiveKeys, (sanitizeProperties p).has k = false) ∧
    (∀ k, k ∉ sensitiveKeys → (sanitizeProperties p).has k = (spreadProps p).has k) ∧
    (∀ svc stamp event, ∃ stored,
      (track svc stamp event p).events.getLast? = some stored ∧ stored.event = event ∧
      ∀ k ∈ sensitiveKeys, stored.properties.has k = false) := by
  refine ⟨rfl, ?_, ?_, ?_⟩
  · intro k hk
    rw [(sanitizeProperties_spec p k).2, if_pos hk]
  · intro k hk
    rw [(sanitizeProperties_spec p k).2, if_neg hk]
  · intro svc stamp event
    refine ⟨makeEvent stamp event p, track_getLast svc stamp event p, rfl, ?_⟩
    intro k hk
    unfold makeEvent
    simp only
    rw [(sanitizeProperties_spec _ k).2, if_pos hk]

/-- C14 at an object with a password and a count. -/
theorem sensitive_keys_removed_witness :
    (sanitizeProperties (.obj (.cons (lit "password") (.str (lit "hunter2"))
      (.cons (lit "count") (.num 3) .nil)))).has (lit "password") = false ∧
    (sanitizeProperties (.obj (.cons (lit "password") (.str (lit "hunter2"))
      (.cons (lit "count") (.num 3) .nil)))).has (lit "count") = true :=
  have hw := sensitive_keys_removed (.obj (.cons (lit "password") (.str (lit "hunter2"))
    (.cons (lit "count") (.num 3) .nil)))
  ⟨hw.2.1 (lit "password") (by decide), (hw.2.2.1 (lit "count") (by decide)).trans (by decide)⟩

/-- C15 fails on the code: the endpoint and the service delete `code`,
`source` and `content` at the top level only.  A body whose properties hold
`{ detail: { code: 'let secret = 1' } }` is accepted, and the stored event
holds that source text under the key `code`, one level down. -/
theorem nested_code_is_stored :
    (telemetryHandler demoRequest demoStamp TelemetryService.new nestedCodeBody).2 =
      telemetryOkResponse ∧
    (telemetryHandler demoRequest demoStamp TelemetryService.new nestedCodeBody).1.events.map
        (fun e => e.properties.hasKeyDeep (lit "code")) = [true] ∧
    (telemetryHandler demoRequest demoStamp TelemetryService.new nestedCodeBody).1.events.map
        (fun e => e.properties.lookup (lit "detail")) =
      [.obj (.cons (lit "code") (.str (lit "let secret = 1")) .nil)] := by
  decide

/-- C16: the store keeps only the last 10000 events.  After every call to
`track` on a service whose `maxEvents` is 10000 the list has at most 10000
events; and after any sequence of calls on a new service the list is exactly
the last `min n 10000` events tracked, in the order they were tracked. -/
theorem telemetry_keeps_last_events :
    TelemetryService.new.events = [] ∧ TelemetryService.new.maxEvents = 10000 ∧
    (∀ svc stamp event p, svc.maxEvents = 10000 →
      (track svc stamp event p).events.length ≤ 10000 ∧
      (track svc stamp event p).maxEvents = 10000 ∧
      (track svc stamp event p).events.getLast? = some (makeEvent stamp event p)) ∧
    (∀ calls : List (Stamp × JsVal × JsVal),
      (trackAll TelemetryService.new calls).events =
        (calls.map (fun c => makeEvent c.1 c.2.1 c.2.2)).drop (calls.length - 10000) ∧
      (trackAll TelemetryService.new calls).events.length = min calls.length 10000) := by
  refine ⟨rfl, rfl, ?_, ?_⟩
  · intro svc stamp event p hmax
    obtain ⟨h1, h2⟩ := track_events svc stamp event p (by omega)
    refine ⟨?_, h2.trans hmax, track_getLast svc stamp event p⟩
    rw [h1, hmax]
    simp only [List.length_drop, List.length_append, List.length_singleton]
    omega
  · intro calls
    have h := (trackAll_events 10000 (by omega) calls).1
    have hnew : TelemetryService.new = { events := [], maxEvents := 10000 } := rfl
    rw [hnew, h]
    refine ⟨rfl, ?_⟩
    simp only [List.length_drop, List.length_map]
    omega

/-- C16 at one call on a new service. -/
theorem telemetry_keeps_last_events_witness :
    (track TelemetryService.new demoStamp (.str (lit "run_ok")) .undefined).events.length ≤ 10000 :=
  (telemetry_keeps_last_events.2.2.1 TelemetryService.new demoStamp (.str (lit "run_ok"))
    .undefined rfl).1

/-- C17: long strings are truncated.  For every properties value `p` and
every key `k` that is not a sensitive key: if `p[k]` is a string of more than
100 characters, the result holds its first 100 characters followed by `...`;
otherwise the result holds `p[k]` itself; and every string in the result has
at most 103 characters. -/
theorem long_strings_truncated (p : JsVal) :
    (∀ k, k ∉ sensitiveKeys → ∀ s, (spreadProps p).lookup k = .str s → s.length > 100 →
      (sanitizeProperties p).lookup k = .str (s.take 100 ++ lit "...")) ∧
    (∀ k, k ∉ sensitiveKeys →
      (∀ s, (spreadProps p).lookup k = .str s → ¬ s.length > 100) →
      (sanitizeProperties p).lookup k = (spreadProps p).lookup k) ∧
    (∀ k s, (sanitizeProperties p).lookup k = .str s → s.length ≤ 103) := by
  have h3 : (lit "...").length = 3 := by decide
  refine ⟨?_, ?_, ?_⟩
  · intro k hk s hs hl
    rw [(sanitizeProperties_spec p k).1, if_neg hk, hs]
    simp [truncateValue, hl, truncateString]
  · intro k hk hshort
    rw [(sanitizeProperties_spec p k).1, if_neg hk]
    cases hv : (spreadProps p).lookup k with
    | str s => simp [truncateValue, hshort s hv]
    | undefined => rfl
    | null => rfl
    | bool b => rfl
    | num n => rfl
    | obj o => rfl
  · intro k s hs
    rw [(sanitizeProperties_spec p k).1] at hs
    by_cases hk : k ∈ sensitiveKeys
    · rw [if_pos hk] at hs
      cases hs
    · rw [if_neg hk] at hs
      cases hv : (spreadProps p).lookup k with
      | str s0 =>
        rw [hv] at hs
        simp only [truncateValue] at hs
        by_cases hl : s0.length > 100
        · rw [if_pos hl] at hs
          cases hs
          simp only [truncateString, List.length_append, List.length_take, h3]
          omega
        · rw [if_neg hl] at hs
          cases hs
          omega
      | undefined => rw [hv] at hs; cases hs
      | null => rw [hv] at hs; cases hs
      | bool b => rw [hv] at hs; cases hs
      | num n => rw [hv] at hs; cases hs
      | obj o => rw [hv] at hs; cases hs

/-- C17 at a short string: it is stored as it is. -/
theorem long_strings_truncated_witness :
    (sanitizeProperties (.obj (.cons (lit "error") (.str (lit "boom")) .nil))).lookup (lit "error") =
      (spreadProps (.obj (.cons (lit "error") (.str (lit "boom")) .nil))).lookup (lit "error") :=
  (long_strings_truncated (.obj (.cons (lit "error") (.str (lit "boom")) .nil))).2.1 (lit "error")
    (by decide) (by
      intro s hs
      have : s = lit "boom" := by
        simp [spreadProps, JsProps.lookup] at hs
        exact hs.symm
      subst this
      decide)

/-! ## Properties of the client services -/

/-- C18: telemetry failures do not affect the user.  For every event and
properties, whether serialising the body throws, the request rejects with any
value (`null` included) or resolves with any status, `sendTelemetry` resolves;
a warning is logged exactly when something was thrown. -/
theorem sendTelemetry_resolves (net : Network) (baseURL : JsString) (event properties : JsVal) :
    (sendTelemetry net baseURL event properties).1 = .resolved ∧
    ((∃ e, .consoleWarn (lit "Telemetry failed:") e ∈
        (sendTelemetry net baseURL event properties).2) ↔
      ((∃ e, net.stringify (.obj (.cons (lit "event") event (.cons (lit "properties")
          (if properties = .undefined then JsVal.obj .nil else properties) .nil))) = .error e) ∨
        ∃ body e, net.stringify (.obj (.cons (lit "event") event (.cons (lit "properties")
          (if properties = .undefined then JsVal.obj .nil else properties) .nil))) = .ok body ∧
          net.fetch (baseURL ++ lit "/api/telemetry") body = .error e)) := by
  unfold sendTelemetry
  simp only
  cases hs : net.stringify (.obj (.cons (lit "event") event (.cons (lit "properties")
      (if properties = .undefined then JsVal.obj .nil else properties) .nil))) with
  | error e => simp
  | ok body =>
    cases hf : net.fetch (baseURL ++ lit "/api/telemetry") body with
    | error e => simp [hf]
    | ok r => simp [hf]

/-! ## Properties of the router -/

/-- A `dispose` that returns has reset the runtime. -/
theorem dispose_returns_new (rt : WasmRuntime) (w : World) (h : (dispose rt w).2.2 = none) :
    (dispose rt w).1 = WasmRuntime.new := by
  unfold dispose at h ⊢
  cases hj : rt.jsRuntime with
  | none => rfl
  | some j =>
    cases hd : j.dispose with
    | none => simp [hd]
    | some hook =>
      cases ht : (hook w.dom).thrown with
      | none => simp [hd, ht]
      | some e => simp [hj, hd, ht] at h

/-- What `PreviewPage.destroy` does: at most one editor event, and a runtime
that is reset when the call returns. -/
theorem previewPage_destroy_spec (id : Nat) (p : PreviewPage) (w : World) :
    ((PreviewPage.destroy id p w).2.2.1 = [] ∨
      (PreviewPage.destroy id p w).2.2.1 = [.editorDisposed id]) ∧
    (PreviewPage.destroy id p w).1.wasmRuntime.isSome = p.wasmRuntime.isSome ∧
    ((PreviewPage.destroy id p w).2.2.2 = none →
      ∀ rt1, (PreviewPage.destroy id p w).1.wasmRuntime = some rt1 → rt1 = WasmRuntime.new) := by
  unfold PreviewPage.destroy
  cases hr : p.wasmRuntime with
  | none =>
    simp only
    cases hm : p.monacoEditor with
    | none => simp [hr]
    | some ed =>
      cases hf : ed.disposeFault with
      | none => simp [hf, hr]
      | some e => simp [hf, hr]
  | some rt =>
    simp only
    have hnew := dispose_returns_new rt w
    rcases hdis : dispose rt w with ⟨rt1, w1, _ | e⟩
    · rw [hdis] at hnew
      have hrt : rt1 = WasmRuntime.new := hnew rfl
      simp only
      cases hm : p.monacoEditor with
      | none => simp [hrt]
      | some ed =>
        cases hf : ed.disposeFault with
        | none => simp [hf, hrt]
        | some e => simp [hf, hrt]
    · simp

/-- What `destroy` does on any page: one `destroyCalled` event, first. -/
theorem page_destroy_spec (page : Page) (w : World) :
    (∃ rest, (page.destroy w).2.2.1 = .destroyCalled page.id :: rest ∧
      (rest = [] ∨ rest = [.editorDisposed page.id])) ∧
    (page.destroy w).1.id = page.id ∧
    ((page.destroy w).2.2.2 = none →
      ∀ id p1, (page.destroy w).1 = .preview id p1 →
        ∀ rt1, p1.wasmRuntime = some rt1 → rt1 = WasmRuntime.new) := by
  cases page with
  | home id =>
    refine ⟨⟨[], rfl, Or.inl rfl⟩, rfl, ?_⟩
    intro _ id2 p1 h
    simp [Page.destroy] at h
  | preview id p =>
    obtain ⟨h1, -, h3⟩ := previewPage_destroy_spec id p w
    refine ⟨⟨(PreviewPage.destroy id p w).2.2.1, rfl, h1⟩, rfl, ?_⟩
    intro ht id2 p2 hp rt1 hrt
    have hp1 : p2 = (PreviewPage.destroy id p w).1 := by
      simp only [Page.destroy, Page.preview.injEq] at hp
      exact hp.2.symm
    subst hp1
    exact h3 ht rt1 hrt

/-- C19: page sessions never coexist.  In every `navigate` call, from any
router state, the `destroy` of the current page is called exactly once and
first; the next page is constructed and rendered after it, and only when it
returned (when it throws, the call throws and the page stays current).  And
when the call returns after leaving a preview page, the runtime of that page
holds no module and no companion object. -/
theorem page_sessions_never_coexist (editor : MonacoEditor) (location : JsString) (r : Router)
    (w : World) (path : JsString) :
    (∀ page, r.currentPage = some page →
      ∃ mid tail,
        (navigate editor location r w path).events = .destroyCalled page.id :: (mid ++ tail) ∧
        (mid = [] ∨ mid = [.editorDisposed page.id]) ∧
        (((navigate editor location r w path).thrown = none ∧
            ∃ c, r.container = some c ∧
              tail = [.containerCleared c, .constructed r.nextId (routeKind path),
                  .rendered r.nextId] ++
                (if path = location then [] else [.historyPushed path]) ∧
              (navigate editor location r w path).router.currentPage =
                some (renderedPage editor (routeKind path) r.nextId)) ∨
          ((navigate editor location r w path).thrown ≠ none ∧ tail = [] ∧
            (navigate editor location r w path).router.currentPage.map Page.id =
              some page.id))) ∧
    (r.currentPage = none →
      ∀ id, NavEvent.destroyCalled id ∉ (navigate editor location r w path).events) ∧
    ((navigate editor location r w path).thrown = none →
      ∀ id p, r.currentPage = some (.preview id p) →
        ∃ p1, (navigate editor location r w path).previous = some (.preview id p1) ∧
          ∀ rt1, p1.wasmRuntime = some rt1 →
            rt1.wasmModule = none ∧ rt1.jsRuntime = none ∧ rt1.isInitialized = false) := by
  refine ⟨?_, ?_, ?_⟩
  · intro page hpage
    obtain ⟨⟨mid, hev, hmid⟩, hid, -⟩ := page_destroy_spec page w
    unfold navigate
    simp only [hpage]
    cases ht : (page.destroy w).2.2.2 with
    | some e =>
      refine ⟨mid, [], ?_, hmid, Or.inr ⟨?_, rfl, ?_⟩⟩
      · simp [hev]
      · simp
      · simp [hid]
    | none =>
      cases hc : r.container with
      | none =>
        refine ⟨mid, [], ?_, hmid, Or.inr ⟨?_, rfl, ?_⟩⟩
        · simp [hev]
        · simp
        · simp [hid]
      | some c =>
        refine ⟨mid, _, ?_, hmid, Or.inl ⟨rfl, c, rfl, rfl, rfl⟩⟩
        simp [hev]
  · intro hnone id
    unfold navigate
    simp only [hnone]
    cases hc : r.container with
    | none => simp
    | some c =>
      simp only [List.nil_append]
      split_ifs <;> simp
  · intro hthrown id p hpage
    obtain ⟨-, -, hrt⟩ := page_destroy_spec (.preview id p) w
    unfold navigate at hthrown ⊢
    simp only [hpage] at hthrown ⊢
    cases ht : ((Page.preview id p).destroy w).2.2.2 with
    | some e => simp [ht] at hthrown
    | none =>
      have hprev : ((Page.preview id p).destroy w).1 =
          .preview id (PreviewPage.destroy id p w).1 := rfl
      have hfinal : ∀ rt1, (PreviewPage.destroy id p w).1.wasmRuntime = some rt1 →
          rt1.wasmModule = none ∧ rt1.jsRuntime = none ∧ rt1.isInitialized = false := by
        intro rt1 h1
        have := hrt ht id _ hprev rt1 h1
        subst this
        exact ⟨rfl, rfl, rfl⟩
      cases hc : r.container with
      | none => simp [ht, hc] at hthrown
      | some c => exact ⟨(PreviewPage.destroy id p w).1, rfl, hfinal⟩

/-- C19 at a navigation from a preview page with a loaded session to the
home page: the runtime of the page left behind holds nothing. -/
theorem page_sessions_never_coexist_witness :
    (navigate quietEditor (lit "/preview") previewRouter emptyWorld (lit "/")).events =
      [.destroyCalled 7, .editorDisposed 7, .containerCleared 0, .constructed 8 .home,
        .rendered 8, .historyPushed (lit "/")] ∧
    (navigate quietEditor (lit "/preview") previewRouter emptyWorld (lit "/")).world.trace =
      [.hookCalled 3] ∧
    ∃ p1, (navigate quietEditor (lit "/preview") previewRouter emptyWorld (lit "/")).previous =
        some (.preview 7 p1) ∧
      ∀ rt1, p1.wasmRuntime = some rt1 →
        rt1.wasmModule = none ∧ rt1.jsRuntime = none ∧ rt1.isInitialized = false :=
  ⟨by decide, by decide,
    (page_sessions_never_coexist quietEditor (lit "/preview") previewRouter emptyWorld
      (lit "/")).2.2 (by decide) 7 _ rfl⟩

/-! ## Properties of the compile pipeline -/

theorem packageResult_cached (cap : Nat) (o : ToolchainOutcome) :
    (packageResult cap o).cached = false := by
  cases o with
  | finished success artifact companionCode stdout stderr elapsedMs =>
    unfold packageResult
    simp only
    split_ifs <;> rfl
  | timedOut ms => rfl
  | launchFailed => rfl

/-- A submission that misses the cache: the toolchain is invoked once, and
the packaged result is stored when it is a success. -/
theorem submit_miss (cfg : PipelineConfig) (p : Pipeline) (src : JsString) (options : JsVal)
    (hmiss : p.cache.entries.find? (fun e => e.1 = cfg.hash src options) = none) :
    (cfg.toolchain p.invocations src options = .launchFailed ∧
      submit cfg p src options =
        (.error .launchFailed, { p with invocations := p.invocations + 1 })) ∨
    (cfg.toolchain p.invocations src options ≠ .launchFailed ∧
      submit cfg p src options =
        (.ok (packageResult cfg.outputCap (cfg.toolchain p.invocations src options)),
          { cache :=
              if (packageResult cfg.outputCap (cfg.toolchain p.invocations src options)).success
              then p.cache.put cfg.capacity (cfg.hash src options)
                (packageResult cfg.outputCap (cfg.toolchain p.invocations src options))
              else p.cache
            invocations := p.invocations + 1 })) := by
  unfold submit
  simp only [ResultCache.get, hmiss]
  cases ho : cfg.toolchain p.invocations src options with
  | launchFailed => exact Or.inl ⟨rfl, rfl⟩
  | timedOut ms => exact Or.inr ⟨by simp, rfl⟩
  | finished s a c o e ms => exact Or.inr ⟨by simp, rfl⟩

/-- A submission that hits the cache returns the stored result with
`cached = true` and does not invoke the toolchain. -/
theorem submit_hit (cfg : PipelineConfig) (p : Pipeline) (src : JsString) (options : JsVal)
    (e : Fingerprint × CompileResult)
    (hhit : p.cache.entries.find? (fun e => e.1 = cfg.hash src options) = some e) :
    (submit cfg p src options).1 = .ok { e.2 with cached := true } ∧
    (submit cfg p src options).2.invocations = p.invocations := by
  unfold submit
  simp [ResultCache.get, hhit]

/-- C20, as the pipeline of the specification has it: for every source text
and options whose fingerprint is not in the cache, on a cache of capacity at
least 1, if the first submission succeeds (`success = true`) then it has
`cached = false`, the second submission returns the same result with
`cached = true`, and the toolchain has been invoked once in all. -/
theorem cache_hit_after_success (cfg : PipelineConfig) (p : Pipeline) (src : JsString)
    (options : JsVal) (r1 : CompileResult)
    (hcap : 0 < cfg.capacity)
    (hmiss : p.cache.entries.find? (fun e => e.1 = cfg.hash src options) = none)
    (hfirst : (submit cfg p src options).1 = .ok r1) (hsucc : r1.success = true) :
    r1.cached = false ∧
    (submit cfg (submit cfg p src options).2 src options).1 = .ok { r1 with cached := true } ∧
    (submit cfg (submit cfg p src options).2 src options).2.invocations = p.invocations + 1 := by
  rcases submit_miss cfg p src options hmiss with ⟨-, h⟩ | ⟨-, h⟩
  · rw [h] at hfirst
    cases hfirst
  · rw [h] at hfirst
    simp only [Except.ok.injEq] at hfirst
    rw [hfirst] at h
    have hne : cfg.capacity ≠ 0 := by omega
    have hhit : (submit cfg p src options).2.cache.entries.find?
        (fun e => e.1 = cfg.hash src options) = some (cfg.hash src options, r1) := by
      rw [h]
      simp [hsucc, ResultCache.put, hne]
    obtain ⟨h1, h2⟩ := submit_hit cfg (submit cfg p src options).2 src options _ hhit
    refine ⟨?_, h1, ?_⟩
    · rw [← hfirst]
      exact packageResult_cached _ _
    · rw [h2, h]

/-- C20 at a toolchain that compiles: the second submission is a cache hit. -/
theorem cache_hit_after_success_witness :
    (submit workingConfig (submit workingConfig Pipeline.new (lit "x") (.obj .nil)).2 (lit "x")
        (.obj .nil)).1 =
      .ok { success := true, artifact := some [0], companionCode := some (lit "glue"), logs := [],
            warnings := [], compilationTimeMs := 12, cached := true } :=
  (cache_hit_after_success workingConfig Pipeline.new (lit "x") (.obj .nil)
    { success := true, artifact := some [0], companionCode := some (lit "glue"), logs := [],
      warnings := [], compilationTimeMs := 12, cached := false }
    (by decide) (by decide) (by decide) rfl).2.1

/-- C20 fails on the pipeline of the specification for a source text that
does not compile: the failure is not cached, so the second submission invokes
the toolchain again and has `cached = false`. -/
theorem failed_compile_is_not_a_cache_hit :
    (submit failingConfig Pipeline.new (lit "x") (.obj .nil)).1 =
      .ok { success := false, artifact := none, companionCode := none,
            logs := [lit "error: expected expression"], warnings := [],
            compilationTimeMs := 12, cached := false } ∧
    (submit failingConfig (submit failingConfig Pipeline.new (lit "x") (.obj .nil)).2 (lit "x")
        (.obj .nil)).1 =
      .ok { success := false, artifact := none, companionCode := none,
            logs := [lit "error: expected expression"], warnings := [],
            compilationTimeMs := 12, cached := false } ∧
    (submit failingConfig (submit failingConfig Pipeline.new (lit "x") (.obj .nil)).2 (lit "x")
        (.obj .nil)).2.invocations = 2 := by
  decide

/-! ## Failures and the cache -/

/-- The cache holds successes only, from one submission to the next. -/
theorem submit_holdsSuccesses (cfg : PipelineConfig) (p : Pipeline) (src : JsString)
    (options : JsVal) (hinv : p.holdsSuccesses = true) :
    (submit cfg p src options).2.holdsSuccesses = true := by
  unfold Pipeline.holdsSuccesses at hinv ⊢
  rw [List.all_eq_true] at hinv ⊢
  cases hf : p.cache.entries.find? (fun e => e.1 = cfg.hash src options) with
  | some e =>
    have hmem := List.mem_of_find?_eq_some hf
    unfold submit
    simp only [ResultCache.get, hf]
    intro x hx
    rcases List.mem_cons.mp hx with h | h
    · rw [h]
      exact hinv e hmem
    · exact hinv x (List.mem_filter.mp h).1
  | none =>
    rcases submit_miss cfg p src options hf with ⟨-, h⟩ | ⟨-, h⟩
    · rw [h]
      exact hinv
    · rw [h]
      simp only
      by_cases hs : (packageResult cfg.outputCap (cfg.toolchain p.invocations src options)).success
          = true
      · rw [if_pos hs]
        unfold ResultCache.put
        by_cases hc : cfg.capacity = 0
        · rw [if_pos hc]
          exact hinv
        · rw [if_neg hc]
          intro x hx
          rcases List.mem_cons.mp hx with h1 | h1
          · rw [h1]
            exact hs
          · exact hinv x (List.mem_filter.mp (List.mem_of_mem_take h1)).1
      · rw [if_neg hs]
        exact hinv

/-- C21: failures are never cached.  On the pipeline of the specification, in
any state whose cache holds successes only (the new pipeline, and every state
reached from it), if a submission returns a result with `success = false`
(a compiler fault, a timeout, output over the cap), then that result was
compiled and not served, the cache is left as it was, and a second submission
of the same source text and options invokes the toolchain again: the
invocation count rises by one more and the result is the packaged outcome of
that new invocation. -/
theorem failures_never_cached (cfg : PipelineConfig) (p : Pipeline) (src : JsString)
    (options : JsVal) (r1 : CompileResult)
    (hinv : p.holdsSuccesses = true)
    (hfirst : (submit cfg p src options).1 = .ok r1) (hfail : r1.success = false) :
    (submit cfg p src options).2.invocations = p.invocations + 1 ∧
    (submit cfg p src options).2.cache = p.cache ∧
    r1 = packageResult cfg.outputCap (cfg.toolchain p.invocations src options) ∧
    (submit cfg (submit cfg p src options).2 src options).2.invocations = p.invocations + 2 ∧
    (submit cfg (submit cfg p src options).2 src options).1 =
      (match cfg.toolchain (p.invocations + 1) src options with
        | .launchFailed => .error .launchFailed
        | outcome => .ok (packageResult cfg.outputCap outcome)) := by
  have hall := hinv
  unfold Pipeline.holdsSuccesses at hall
  rw [List.all_eq_true] at hall
  cases hf : p.cache.entries.find? (fun e => e.1 = cfg.hash src options) with
  | some e =>
    have hmem := List.mem_of_find?_eq_some hf
    have h1 := (submit_hit cfg p src options e hf).1
    rw [h1] at hfirst
    simp only [Except.ok.injEq] at hfirst
    have hs : r1.success = e.2.success := by rw [← hfirst]
    rw [hs, hall e hmem] at hfail
    cases hfail
  | none =>
    rcases submit_miss cfg p src options hf with ⟨-, h⟩ | ⟨-, h⟩
    · rw [h] at hfirst
      cases hfirst
    · have hr : packageResult cfg.outputCap (cfg.toolchain p.invocations src options) = r1 := by
        rw [h] at hfirst
        simpa using hfirst
      rw [hr] at h
      have hne : ¬ r1.success = true := by rw [hfail]; simp
      rw [if_neg hne] at h
      have hf2 : (submit cfg p src options).2.cache.entries.find?
          (fun e => e.1 = cfg.hash src options) = none := by
        rw [h]
        exact hf
      have hinv2 : (submit cfg p src options).2.invocations = p.invocations + 1 := by rw [h]
      refine ⟨hinv2, by rw [h], hr.symm, ?_, ?_⟩
      · rcases submit_miss cfg (submit cfg p src options).2 src options hf2 with ⟨-, h2⟩ | ⟨-, h2⟩
        · rw [h2, hinv2]
        · rw [h2, hinv2]
      · rcases submit_miss cfg (submit cfg p src options).2 src options hf2 with
          ⟨ho, h2⟩ | ⟨ho, h2⟩
        · rw [hinv2] at ho
          rw [h2, ho]
        · rw [hinv2] at ho h2
          rw [h2]
          cases ho2 : cfg.toolchain (p.invocations + 1) src options with
          | launchFailed => exact absurd ho2 ho
          | timedOut ms => rfl
          | finished s a c o e ms => rfl

/-- C21 at a source text that does not compile, on a new pipeline: the retry
is the second invocation of the toolchain. -/
theorem failures_never_cached_witness :
    (submit failingConfig (submit failingConfig Pipeline.new (lit "x") (.obj .nil)).2 (lit "x")
      (.obj .nil)).2.invocations = Pipeline.new.invocations + 2 :=
  (failures_never_cached failingConfig Pipeline.new (lit "x") (.obj .nil)
    { success := false, artifact := none, companionCode := none,
      logs := [lit "error: expected expression"], warnings := [],
      compilationTimeMs := 12, cached := false }
    (by decide) (by decide) rfl).2.2.2.1

/-! ## The session flag -/

/-- C23, as the code has it: `loadAndExecute` sets `isInitialized` on success
and never clears it.  After a call that returns `r`, the flag is true exactly
when it was true before the call or `r.success` is true; so on a runtime whose
flag was false (new, or disposed) the flag agrees with `r.success`. -/
theorem session_flag_after_load (h : Host) (rt : WasmRuntime) (w : World) (a c : JsString)
    (k : ContainerId) (r : LoadResult)
    (hr : (loadAndExecute h rt w a c k).1 = .resolved r) :
    (loadAndExecute h rt w a c k).2.1.isInitialized = (rt.isInitialized || r.success) ∧
    (rt.isInitialized = false →
      ((loadAndExecute h rt w a c k).2.1.isInitialized = true ↔ r.success = true)) := by
  have ho := loadAndExecute_outcome h rt w a c k
  have hst := (loadAndExecute_state h rt w a c k).1
  have hmain : (loadAndExecute h rt w a c k).2.1.isInitialized =
      (rt.isInitialized || r.success) := by
    rw [hst]
    rw [hr] at ho
    rcases loadBody_cases h rt w a c k with ⟨e, h1, hb⟩ | ⟨b, e, h1, h2, hb⟩ |
      ⟨b, m, w2, h1, h2, ⟨e, hexec, hb⟩ | ⟨hexec, ⟨h4, hb⟩ | ⟨ep, h4, ⟨e, h5, hb⟩ |
        ⟨j, h5, ⟨e, h6, hb⟩ | ⟨h6, ⟨e, h7, hb⟩ | ⟨h7, hb⟩⟩⟩⟩⟩⟩
    all_goals
      rw [hb] at ho ⊢
      simp only at ho ⊢
    all_goals first
      | (simp only [loadOk, Outcome.resolved.injEq] at ho
         rw [ho]
         simp)
      | (cases hm : getProp e (lit "message") with
         | error te => rw [hm] at ho; cases ho
         | ok msg =>
           rw [hm] at ho
           simp only [Outcome.resolved.injEq] at ho
           rw [ho]
           simp)
      | (have hm : getProp entryPointNotFound (lit "message") =
            .ok (.str (lit "SwiftUIWasmRuntime not found in compiled JavaScript")) := by decide
         rw [hm] at ho
         simp only [Outcome.resolved.injEq] at ho
         rw [ho]
         simp)
  refine ⟨hmain, fun hfalse => ?_⟩
  rw [hmain, hfalse]
  simp

/-- C23 on a new runtime: the flag agrees with the outcome of the load. -/
theorem session_flag_after_load_witness :
    (plainLoad.2.1.isInitialized = true ↔ (LoadResult.mk true none).success = true) :=
  (session_flag_after_load demoHost WasmRuntime.new emptyWorld (lit "TWFu")
    (lit "window.SwiftUIWasmRuntime = Plain") 0 { success := true, error := none }
    (by decide)).2 rfl

/-- C23 fails on the code for a runtime left Ready: after a successful load,
a second load whose artifact is not base64 returns `success = false`, and
`isInitialized` is still true. -/
theorem failed_reload_keeps_flag :
    plainLoad.1 = loadOk ∧
    plainLoad.2.1.isInitialized = true ∧
    staleFlagLoad.1 = loadFailed (lit "The string to be decoded is not correctly encoded.") ∧
    staleFlagLoad.2.1.isInitialized = true := by
  decide

/-! ## Sanitising twice -/

theorem JsProps.delete_of_not_has (ps : JsProps) (key : JsString) (h : ps.has key = false) :
    ps.delete key = ps := by
  match ps with
  | .nil => rfl
  | .cons k v rest =>
    have ih := JsProps.delete_of_not_has rest key
    by_cases h0 : k = key
    · simp [JsProps.has, h0] at h
    · simp only [JsProps.has, if_neg h0] at h
      simp [JsProps.delete, h0, ih h]

theorem JsProps.set_lookup_self (ps : JsProps) (key : JsString) (h : ps.has key = true) :
    ps.set key (ps.lookup key) = ps := by
  match ps with
  | .nil => simp [JsProps.has] at h
  | .cons k v rest =>
    have ih := JsProps.set_lookup_self rest key
    by_cases h0 : k = key
    · simp [JsProps.set, JsProps.lookup, h0]
    · simp only [JsProps.has, if_neg h0] at h
      simp [JsProps.set, JsProps.lookup, h0, ih h]

theorem foldl_delete_absent (keys : List JsString) (ps : JsProps)
    (h : ∀ k ∈ keys, ps.has k = false) : keys.foldl JsProps.delete ps = ps := by
  induction keys with
  | nil => rfl
  | cons key rest ih =>
    rw [List.foldl_cons, JsProps.delete_of_not_has ps key (h key (List.mem_cons_self _ _))]
    exact ih (fun k hk => h k (List.mem_cons_of_mem _ hk))

theorem truncateKey_fixed (ps : JsProps) (key : JsString)
    (h : truncateValue (ps.lookup key) = ps.lookup key) : truncateKey ps key = ps := by
  unfold truncateKey
  cases hv : ps.lookup key with
  | str s =>
    simp only
    by_cases hl : s.length > 100
    · rw [if_pos hl]
      rw [hv] at h
      simp only [truncateValue, if_pos hl] at h
      rw [h, ← hv]
      exact JsProps.set_lookup_self ps key (JsProps.has_of_lookup_str ps key s hv)
    · rw [if_neg hl]
  | undefined => rfl
  | null => rfl
  | bool b => rfl
  | num n => rfl
  | obj o => rfl

theorem foldl_truncateKey_fixed (keys : List JsString) (ps : JsProps)
    (h : ∀ k, truncateValue (ps.lookup k) = ps.lookup k) : keys.foldl truncateKey ps = ps := by
  induction keys with
  | nil => rfl
  | cons key rest ih => rw [List.foldl_cons, truncateKey_fixed ps key (h key)]; exact ih

/-- The loops of `sanitizeRun` write to `sanitized` only. -/
theorem sanitizeRun_foldl (f : JsProps → JsString → JsProps) (keys : List JsString)
    (s : SanitizeState) :
    keys.foldl (fun (s : SanitizeState) key => { s with sanitized := f s.sanitized key }) s =
      { properties := s.properties, sanitized := keys.foldl f s.sanitized } := by
  induction keys generalizing s with
  | nil => rfl
  | cons key rest ih => rw [List.foldl_cons, ih]; rfl

/-- C24: `sanitizeProperties` is idempotent and does not mutate its argument.
For every value `p`, sanitising the result of `sanitizeProperties p` again
returns it as it is (no sensitive key is left to delete, and a value already
cut to 103 characters is cut to itself); and in the run of the function on the
two objects, the argument is at the end what it was at the start, while the
local object is the returned result. -/
theorem sanitizeProperties_idempotent (p : JsVal) :
    sanitizeProperties (.obj (sanitizeProperties p)) = sanitizeProperties p ∧
    (sanitizeRun p).properties = p ∧
    (sanitizeRun p).sanitized = sanitizeProperties p := by
  refine ⟨?_, ?_, ?_⟩
  · have hdel : sensitiveKeys.foldl JsProps.delete (sanitizeProperties p) =
        sanitizeProperties p :=
      foldl_delete_absent sensitiveKeys _ (fun k hk => by
        rw [(sanitizeProperties_spec p k).2, if_pos hk])
    have hfix : ∀ k, truncateValue ((sanitizeProperties p).lookup k) =
        (sanitizeProperties p).lookup k := by
      intro k
      rw [(sanitizeProperties_spec p k).1]
      by_cases hs : k ∈ sensitiveKeys
      · rw [if_pos hs]; rfl
      · rw [if_neg hs, truncateValue_idem]
    show (sensitiveKeys.foldl JsProps.delete (sanitizeProperties p)).keys.foldl truncateKey
      (sensitiveKeys.foldl JsProps.delete (sanitizeProperties p)) = sanitizeProperties p
    rw [hdel]
    exact foldl_truncateKey_fixed _ _ hfix
  · unfold sanitizeRun
    simp only [sanitizeRun_foldl]
  · unfold sanitizeRun sanitizeProperties
    simp only [sanitizeRun_foldl]

/-! ## The statistics -/

/-- The totals, the two windows and the last event of `getStats`. -/
theorem getStats_totals (clock : StatsClock) (svc : TelemetryService) :
    (getStats clock svc).totalEvents = svc.events.length ∧
    (getStats clock svc).recentEvents ≤ (getStats clock svc).dailyEvents ∧
    (getStats clock svc).dailyEvents ≤ (getStats clock svc).totalEvents ∧
    (getStats clock svc).lastEvent = svc.events.getLast? := by
  refine ⟨rfl, ?_, ?_, rfl⟩
  · show (svc.events.filter (withinSpan clock (60 * 60 * 1000))).length ≤
      (svc.events.filter (withinSpan clock (24 * (60 * 60 * 1000)))).length
    rw [← List.countP_eq_length_filter, ← List.countP_eq_length_filter]
    apply List.countP_mono_left
    intro e _ he
    unfold withinSpan at he ⊢
    cases ht : clock.getTime e.timestamp with
    | none => rw [ht] at he; simp at he
    | some t =>
      rw [ht] at he
      simp only [decide_eq_true_eq] at he ⊢
      omega
  · exact List.length_filter_le _ _

/-- The counting loop, when no event name is a property name of
`Object.prototype`: under every name stands the number of events of that name,
and a name of no event has no entry. -/
theorem countEvent_foldl_spec (clock : StatsClock) (events : List TelemetryEvent)
    (hk : ∀ e ∈ events, toJsString e.event ∉ objectPrototypeKeys) :
    ∀ name : JsString,
      (events.foldl (countEvent clock) .nil).lookup name =
          (if eventsNamed name events = 0 then .undefined
            else .num (eventsNamed name events : Int)) ∧
      (events.foldl (countEvent clock) .nil).has name = decide (eventsNamed name events ≠ 0) := by
  induction events using List.reverseRecOn with
  | nil =>
    intro name
    simp [eventsNamed, JsProps.lookup, JsProps.has]
  | append_singleton evs e ih =>
    intro name
    have ih1 := ih (fun x hx => hk x (List.mem_append_left _ hx))
    have hke : toJsString e.event ∉ objectPrototypeKeys := hk e (by simp)
    have hproto : toJsString e.event ≠ lit "__proto__" := by
      intro h
      rw [h] at hke
      exact hke (by decide)
    have hcount : eventsNamed name (evs ++ [e]) =
        eventsNamed name evs + (if toJsString e.event = name then 1 else 0) := by
      simp [eventsNamed, List.countP_append, List.countP_cons]
    obtain ⟨hl, hh⟩ := ih1 (toJsString e.event)
    obtain ⟨hln, hhn⟩ := ih1 name
    rw [List.foldl_append, List.foldl_cons, List.foldl_nil, hcount]
    generalize evs.foldl (countEvent clock) .nil = acc at hl hh hln hhn ⊢
    unfold countEvent
    simp only
    by_cases hhas : acc.has (toJsString e.event) = true
    · rw [if_pos hhas]
      rw [hhas] at hh
      have hc : eventsNamed (toJsString e.event) evs ≠ 0 := by simpa using hh.symm
      rw [if_neg hc] at hl
      have hci : (eventsNamed (toJsString e.event) evs : Int) ≠ 0 := by exact_mod_cast hc
      rw [hl]
      simp only [orZeroPlusOne, if_neg hci]
      rw [JsProps.lookup_set, JsProps.has_set]
      by_cases hn : name = toJsString e.event
      · subst hn
        simp
      · have hn2 : ¬ toJsString e.event = name := fun h => hn h.symm
        rw [if_neg hn, if_neg hn, hln, hhn]
        simp [hn2]
    · rw [if_neg hhas, if_neg hproto, if_neg hke]
      have hf : acc.has (toJsString e.event) = false := by simpa using hhas
      rw [hf] at hh
      have hc : eventsNamed (toJsString e.event) evs = 0 := by simpa using hh.symm
      rw [JsProps.lookup_set, JsProps.has_set]
      by_cases hn : name = toJsString e.event
      · subst hn
        simp [hc]
      · have hn2 : ¬ toJsString e.event = name := fun h => hn h.symm
        rw [if_neg hn, if_neg hn, hln, hhn]
        simp [hn2]

/-- The counts of `getStats` for event names that are no property names of
`Object.prototype`. -/
theorem getStats_eventTypes (clock : StatsClock) (svc : TelemetryService) (name : JsString)
    (hk : ∀ e ∈ svc.events, toJsString e.event ∉ objectPrototypeKeys) :
    (getStats clock svc).eventTypes.lookup name =
      (if eventsNamed name svc.events = 0 then .undefined
        else .num (eventsNamed name svc.events : Int)) :=
  (countEvent_foldl_spec clock svc.events hk name).1

/-- The statistics one second after two events named `page_view`. -/
theorem getStats_page_views :
    getStats demoClock pageViewsTracked =
      { totalEvents := 2
        recentEvents := 2
        dailyEvents := 2
        eventTypes := .cons (lit "page_view") (.num 2) .nil
        lastEvent := some (makeEvent demoStamp (.str (lit "page_view")) (.obj .nil)) } := by
  decide

/-- C25 fails on the code for an event whose name is a property name of
`Object.prototype`.  On every platform, after one event named `constructor`
was tracked, `getStats` has `totalEvents = 1` and one stored event of that
name, while `eventTypes.constructor` is a string (the text of the inherited
member with `1` appended) and not the number 1; and after one event named
`__proto__` was tracked, `totalEvents = 1` while `eventTypes` has no entry, so
that its counts sum to 0. -/
theorem inherited_name_is_miscounted (clock : StatsClock) :
    (getStats clock constructorTracked).totalEvents = 1 ∧
    eventsNamed (lit "constructor") constructorTracked.events = 1 ∧
    (getStats clock constructorTracked).eventTypes.lookup (lit "constructor") =
      .str (clock.memberText (lit "constructor") ++ lit "1") ∧
    (getStats clock constructorTracked).eventTypes.lookup (lit "constructor") ≠ .num 1 ∧
    (getStats clock protoTracked).totalEvents = 1 ∧
    eventsNamed (lit "__proto__") protoTracked.events = 1 ∧
    (getStats clock protoTracked).eventTypes = .nil := by
  refine ⟨rfl, by decide, rfl, ?_, rfl, by decide, rfl⟩
  intro h
  have h2 : (getStats clock constructorTracked).eventTypes.lookup (lit "constructor") =
      .str (clock.memberText (lit "constructor") ++ lit "1") := rfl
  rw [h2] at h
  cases h

/-! ## The templates -/

/-- Every option of `renderTemplateOptions` is a key of `templates`, under
which `getTemplate` returns the template of the same display name. -/
theorem getTemplate_of_entry (code : JsString → JsString) (entry : JsString × JsString)
    (h : entry ∈ templateEntries) :
    ∃ t, (templates code).lookup entry.1 = some t ∧ t.name = entry.2 ∧
      getTemplate code (.str entry.1) = .template t := by
  simp only [templateEntries, List.mem_cons, List.mem_singleton, List.not_mem_nil, or_false] at h
  rcases h with h | h | h | h | h | h | h <;> (rw [h]; exact ⟨_, rfl, rfl, rfl⟩)

/-- The fallback: a name that is no key of `templates` and no property name of
`Object.prototype` gives the hello template. -/
theorem getTemplate_fallback (code : JsString → JsString) (name : JsVal)
    (hown : (templates code).lookup (toJsString name) = none)
    (hproto : toJsString name ∉ objectPrototypeKeys) :
    getTemplate code name = .template (helloTemplate code) := by
  unfold getTemplate
  simp only [hown, if_neg hproto]

/-- A property name of `Object.prototype` gives the inherited member. -/
theorem getTemplate_inherited (code : JsString → JsString) (name : JsVal)
    (hproto : toJsString name ∈ objectPrototypeKeys) :
    getTemplate code name = .inheritedMember (toJsString name) := by
  have hown : (templates code).lookup (toJsString name) = none := by
    simp only [objectPrototypeKeys, List.mem_cons, List.mem_singleton, List.not_mem_nil,
      or_false] at hproto
    rcases hproto with h | h | h | h | h | h | h | h | h | h | h | h <;> (rw [h]; rfl)
  unfold getTemplate
  simp only [hown, if_pos hproto]

/-- C26 fails on the code for the names `constructor` and `toString`.  For
every source text of the templates, `getTemplate` returns for them the member
of `Object.prototype` of that name and not the hello template, and the `code`
and `description` of that result are `undefined`; while for `undefined` and
for the empty string it returns the hello template. -/
theorem getTemplate_returns_inherited_member (code : JsString → JsString) :
    getTemplate code (.str (lit "constructor")) = .inheritedMember (lit "constructor") ∧
    getTemplate code (.str (lit "toString")) = .inheritedMember (lit "toString") ∧
    getTemplate code (.str (lit "constructor")) ≠ .template (helloTemplate code) ∧
    (getTemplate code (.str (lit "constructor"))).codeField = .undefined ∧
    (getTemplate code (.str (lit "constructor"))).descriptionField = .undefined ∧
    getTemplate code .undefined = .template (helloTemplate code) ∧
    getTemplate code (.str (lit "")) = .template (helloTemplate code) := by
  refine ⟨rfl, rfl, ?_, rfl, rfl, rfl, rfl⟩
  intro h
  have h2 : getTemplate code (.str (lit "constructor")) =
      .inheritedMember (lit "constructor") := rfl
  rw [h2] at h
  cases h

end SevaSwiftUI
